import Mathlib

/-!
Verification of the color-palette generator: a shallow embedding of the
hex/HSL conversion functions, the palette-scheme generator and the
accessibility metrics, over exact rational arithmetic (JavaScript's
`Math.round(x)` is `⌊x + 1/2⌋`; `Math.pow(x, 2.4)` is modelled by the real
power function).  String-valued hex colors are modelled as Lean `String`s.

Namespaces mirror the modules of the repository:
* `Generator`  — the standalone generator component (hexToHsl, hslToHex,
  normalizeHue, generatePalette and the App-level validation guard);
* `ColorUtils` — the colorUtils module (hexToRgb, rgbToHex, getLuminance,
  getContrastText and the chroma/sector hslToHex variant);
* `LibUtils`   — lib/utils.ts (getContrastRatio with its local getLuminance).
-/

set_option maxRecDepth 40000

set_option allowUnsafeReducibility true

attribute [local semireducible] Rat.add Rat.mul Rat.inv Rat.sub Rat.ofScientific

/-- JavaScript `Math.round` on an exact rational: round half toward `+∞`. -/
def jsRound (x : ℚ) : ℤ := ⌊x + 1/2⌋

/-- The numeric value of a hexadecimal digit accepted by `parseInt(_, 16)`:
`0`–`9`, `a`–`f`, `A`–`F`; `none` for any other character. -/
def hexDigitVal (c : Char) : Option ℕ :=
  let n := c.toNat
  if 48 ≤ n ∧ n ≤ 57 then some (n - 48)
  else if 97 ≤ n ∧ n ≤ 102 then some (n - 87)
  else if 65 ≤ n ∧ n ≤ 70 then some (n - 55)
  else none

/-- Whether a character belongs to the case-insensitive class `[0-9A-F]`
of the validation regexes. -/
def isHexDigitChar (c : Char) : Bool := (hexDigitVal c).isSome

/-- JavaScript `parseInt(s, 16)` on a two-character string: `none` models NaN
(first character not a hex digit); a valid first digit followed by an invalid
character parses the maximal prefix, as `parseInt` does. -/
def channel? (c1 c2 : Char) : Option ℤ :=
  match hexDigitVal c1 with
  | none => none
  | some v1 =>
    match hexDigitVal c2 with
    | none => some (v1 : ℤ)
    | some v2 => some (16 * (v1 : ℤ) + (v2 : ℤ))

/-- The character for a hex digit, as produced by JavaScript
`Number.prototype.toString(16)`: lowercase. -/
def hexDigitChar (n : ℕ) : Char :=
  match n with
  | 0 => '0' | 1 => '1' | 2 => '2' | 3 => '3' | 4 => '4'
  | 5 => '5' | 6 => '6' | 7 => '7' | 8 => '8' | 9 => '9'
  | 10 => 'a' | 11 => 'b' | 12 => 'c' | 13 => 'd' | 14 => 'e'
  | _ => 'f'

/-- Digit list of `n.toString(16)`, with explicit fuel so that the recursion is
structural (`fuel ≥ n + 1` suffices). -/
def natToHexAux : ℕ → ℕ → List Char
  | 0, _ => []
  | fuel + 1, n =>
    if n < 16 then [hexDigitChar n]
    else natToHexAux fuel (n / 16) ++ [hexDigitChar (n % 16)]

/-- JavaScript `n.toString(16)` for a natural number. -/
def natToHex (n : ℕ) : String := String.mk (natToHexAux (n + 1) n)

/-- JavaScript `n.toString(16)` for an integer (negative values render with a
leading minus sign; the generator only ever reaches the nonnegative case). -/
def intToHex (n : ℤ) : String :=
  if n < 0 then String.mk ('-' :: natToHexAux (n.natAbs + 1) n.natAbs)
  else natToHex n.toNat

/-- The two-digit zero-padded rendering shared by the generator's `toHex`
helper and colorUtils' `rgbToHex`:
`hex.length === 1 ? '0' + hex : hex`. -/
def byteStr (n : ℤ) : String :=
  let h := intToHex n
  if h.length = 1 then "0" ++ h else h

namespace Generator

/-- An entry of the generated palette: the `Color` interface of the source
(`hex` plus `description`). -/
structure Color where
  hex : String
  description : String
deriving DecidableEq

/-- The closed set of schemes of the standalone generator. -/
inductive ColorSchemeType where
  | Analogous | Complementary | Triadic | Monochromatic
  | SplitComplementary | Tetradic | MonochromaticAchromatic | LuminosityContrast
deriving DecidableEq

/-- HSL triple as returned by `hexToHsl`: integer-rounded hue, saturation and
lightness. -/
structure Hsl where
  h : ℤ
  s : ℤ
  l : ℤ
deriving DecidableEq

/-- Lines 76–100 of the generator: RGB channels (0–255) to rounded HSL. -/
def hslFromRgb (r g b : ℤ) : Hsl :=
  let rf : ℚ := r / 255
  let gf : ℚ := g / 255
  let bf : ℚ := b / 255
  let mx := max rf (max gf bf)
  let mn := min rf (min gf bf)
  let l := (mx + mn) / 2
  if mx = mn then ⟨0, 0, jsRound (l * 100)⟩
  else
    let d := mx - mn
    let s := if l > 1/2 then d / (2 - mx - mn) else d / (mx + mn)
    let hRaw :=
      if mx = rf then (gf - bf) / d + (if gf < bf then 6 else 0)
      else if mx = gf then (bf - rf) / d + 2
      else (rf - gf) / d + 4
    ⟨jsRound (hRaw / 6 * 360), jsRound (s * 100), jsRound (l * 100)⟩

/-- `hexToHsl` of the generator.  A 4-character string parses nibble-duplicated
characters 1–3, a 7-character string parses three pairs, any other length
yields the fallback `{h:0, s:0, l:0}`.  When a character of a 4- or
7-character string is not a hex digit, the JavaScript original propagates NaN
through the arithmetic; that run is mapped to the same `⟨0, 0, 0⟩` record here,
and no theorem below depends on this arm (they either assume a valid hex input
or concern schemes that ignore the parsed HSL). -/
def hexToHsl (hex : String) : Hsl :=
  match hex.data with
  | [_, c1, c2, c3] =>
    match channel? c1 c1, channel? c2 c2, channel? c3 c3 with
    | some r, some g, some b => hslFromRgb r g b
    | _, _, _ => ⟨0, 0, 0⟩
  | [_, c1, c2, c3, c4, c5, c6] =>
    match channel? c1 c2, channel? c3 c4, channel? c5 c6 with
    | some r, some g, some b => hslFromRgb r g b
    | _, _, _ => ⟨0, 0, 0⟩
  | _ => ⟨0, 0, 0⟩

/-- The `hue2rgb` helper of `hslToHex`, verbatim. -/
def hue2rgb (p q t : ℚ) : ℚ :=
  let t1 := if t < 0 then t + 1 else t
  let t2 := if t1 > 1 then t1 - 1 else t1
  if t2 < 1/6 then p + (q - p) * 6 * t2
  else if t2 < 1/2 then q
  else if t2 < 2/3 then p + (q - p) * (2/3 - t2) * 6
  else p

/-- The `toHex` helper of `hslToHex`: scale a [0,1] channel to a byte, round,
render in base 16 and pad to two digits. -/
def toHex (c : ℚ) : String := byteStr (jsRound (c * 255))

/-- `hslToHex` of the generator (hue2rgb formulation).  Note the output hex
digits are lowercase, as `toString(16)` produces. -/
def hslToHex (h s l : ℚ) : String :=
  let h' := h / 360
  let s' := s / 100
  let l' := l / 100
  if s' = 0 then "#" ++ toHex l' ++ toHex l' ++ toHex l'
  else
    let q := if l' < 1/2 then l' * (1 + s') else l' + s' - l' * s'
    let p := 2 * l' - q
    "#" ++ toHex (hue2rgb p q (h' + 1/3)) ++ toHex (hue2rgb p q h')
        ++ toHex (hue2rgb p q (h' - 1/3))

/-- `normalizeHue`: `((h % 360) + 360) % 360` with JavaScript's truncating
remainder. -/
def normalizeHue (h : ℤ) : ℤ := (Int.tmod h 360 + 360).tmod 360

/-- The `getShades` helper of `generatePalette`: principal, lighter and darker
entries at a given hue, using the base color's saturation and lightness. -/
def getShades (baseS baseL : ℤ) (hue : ℤ) (label : String) : List Color :=
  let h := normalizeHue hue
  [ ⟨hslToHex (h : ℚ) (baseS : ℚ) (baseL : ℚ), label⟩,
    ⟨hslToHex (h : ℚ) ((min (baseS + 10) 100 : ℤ) : ℚ) ((min (baseL + 20) 90 : ℤ) : ℚ),
      label ++ " (Luminoso)"⟩,
    ⟨hslToHex (h : ℚ) ((max (baseS - 10) 0 : ℤ) : ℚ) ((max (baseL - 20) 10 : ℤ) : ℚ),
      label ++ " (Scuro)"⟩ ]

/-- The candidate sequence `palette` assembled by `generatePalette` before the
deduplication loop: the pushed Base entry followed by the per-scheme entries,
or the wholesale replacement for LuminosityContrast, MonochromaticAchromatic
and Monochromatic. -/
def rawPalette (baseHex : String) (scheme : ColorSchemeType) : List Color :=
  let base := hexToHsl baseHex
  let baseH := base.h
  let baseS := base.s
  let baseL := base.l
  match scheme with
  | ColorSchemeType.LuminosityContrast =>
    (List.zipWith
      (fun (l : ℤ) (g : String) =>
        (⟨hslToHex (baseH : ℚ) (baseS : ℚ) (l : ℚ),
          "Sfumatura " ++ g ++ " (L=" ++ toString l ++ "%)"⟩ : Color))
      [10, 25, 40, 55, 70, 85, 95]
      ["900", "700", "500", "300", "200", "100", "50"]).reverse
  | ColorSchemeType.MonochromaticAchromatic =>
    [ ⟨baseHex, "Base (Accento)"⟩,
      ⟨"#FFFFFF", "Neutro (Bianco)"⟩,
      ⟨"#E5E7EB", "Neutro (Grigio Chiaro)"⟩,
      ⟨"#4B5563", "Neutro (Grigio Scuro)"⟩,
      ⟨"#000000", "Neutro (Nero)"⟩ ]
  | ColorSchemeType.Monochromatic =>
    [ ⟨baseHex, "Base (Originale)"⟩,
      ⟨hslToHex (baseH : ℚ) ((min (baseS + 15) 100 : ℤ) : ℚ) ((min (baseL + 30) 95 : ℤ) : ℚ),
        "Monocromatico (Chiaro 1)"⟩,
      ⟨hslToHex (baseH : ℚ) ((min (baseS + 5) 100 : ℤ) : ℚ) ((min (baseL + 15) 80 : ℤ) : ℚ),
        "Monocromatico (Chiaro 2)"⟩,
      ⟨hslToHex (baseH : ℚ) ((max (baseS - 15) 0 : ℤ) : ℚ) ((max (baseL - 30) 5 : ℤ) : ℚ),
        "Monocromatico (Scuro 1)"⟩,
      ⟨hslToHex (baseH : ℚ) ((max (baseS - 5) 0 : ℤ) : ℚ) ((max (baseL - 15) 20 : ℤ) : ℚ),
        "Monocromatico (Scuro 2)"⟩ ]
  | ColorSchemeType.Analogous =>
    ⟨baseHex, "Base"⟩ ::
      (getShades baseS baseL (normalizeHue (baseH + 30)) "Analogo 1"
        ++ getShades baseS baseL (normalizeHue (baseH - 30)) "Analogo 2")
  | ColorSchemeType.Complementary =>
    let compH := normalizeHue (baseH + 180)
    ⟨baseHex, "Base"⟩ ::
      (getShades baseS baseL compH "Complementare"
        ++ getShades baseS baseL (normalizeHue (compH + 15)) "Complementare Variante 1"
        ++ getShades baseS baseL (normalizeHue (compH - 15)) "Complementare Variante 2")
  | ColorSchemeType.Triadic =>
    ⟨baseHex, "Base"⟩ ::
      (getShades baseS baseL (normalizeHue (baseH + 120)) "Triadico 1"
        ++ getShades baseS baseL (normalizeHue (baseH + 240)) "Triadico 2")
  | ColorSchemeType.SplitComplementary =>
    let compH := normalizeHue (baseH + 180)
    ⟨baseHex, "Base"⟩ ::
      (getShades baseS baseL (normalizeHue (compH + 30)) "Split Comp. 1"
        ++ getShades baseS baseL (normalizeHue (compH - 30)) "Split Comp. 2")
  | ColorSchemeType.Tetradic =>
    ⟨baseHex, "Base"⟩ ::
      (getShades baseS baseL (normalizeHue (baseH + 90)) "Tetradico 1 (90°)"
        ++ getShades baseS baseL (normalizeHue (baseH + 180)) "Tetradico 2 (180°)"
        ++ getShades baseS baseL (normalizeHue (baseH + 270)) "Tetradico 3 (270°)")

/-- The skip condition of the deduplication loop (line 284): an entry whose
hex equals the base hex under a label other than `"Base"` is dropped
outright, except for the LuminosityContrast scheme. -/
def guardSkip (scheme : ColorSchemeType) (baseHex : String) (c : Color) : Prop :=
  scheme ≠ ColorSchemeType.LuminosityContrast ∧ c.hex = baseHex ∧
    c.description ≠ "Base"

instance (scheme : ColorSchemeType) (baseHex : String) (c : Color) :
    Decidable (guardSkip scheme baseHex c) :=
  inferInstanceAs (Decidable (_ ∧ _ ∧ _))

/-- The deduplication loop of `generatePalette`: `seen` is the `Set` of
already-emitted hexes.  An entry matching `guardSkip` is skipped; an entry
whose hex was already emitted is dropped; otherwise it is emitted. -/
def dedupPalette (scheme : ColorSchemeType) (baseHex : String) :
    List Color → List String → List Color
  | [], _ => []
  | c :: rest, seen =>
    if guardSkip scheme baseHex c then
      dedupPalette scheme baseHex rest seen
    else if c.hex ∈ seen then
      dedupPalette scheme baseHex rest seen
    else
      c :: dedupPalette scheme baseHex rest (c.hex :: seen)

/-- `generatePalette` of the generator: candidate assembly followed by the
deduplication loop. -/
def generatePalette (baseHex : String) (scheme : ColorSchemeType) : List Color :=
  dedupPalette scheme baseHex (rawPalette baseHex scheme) []

/-- The hex-validation regex `^#([0-9A-F]{3}){1,2}$` (case-insensitive) used
by the App component before it calls `generatePalette`. -/
def isValidHex (s : String) : Bool :=
  match s.data with
  | c :: rest =>
    c == '#' && (rest.length == 3 || rest.length == 6) && rest.all isHexDigitChar
  | [] => false

/-- The App component's memoized palette (lines 385–389): empty for an input
failing the validation regex, otherwise `generatePalette`. -/
def appPalette (baseColor : String) (scheme : ColorSchemeType) : List Color :=
  if isValidHex baseColor then generatePalette baseColor scheme else []

/-- The round-trip composition `hslToHex(hexToHsl(hex))` the spec's
conversion property quantifies over. -/
def roundTrip (hex : String) : String :=
  let c := hexToHsl hex
  hslToHex (c.h : ℚ) (c.s : ℚ) (c.l : ℚ)

end Generator

/-- The sRGB gamma expansion shared by colorUtils' `getLuminance` and
lib/utils.ts' `getContrastRatio`:
`c <= 0.03928 ? c/12.92 : Math.pow((c+0.055)/1.055, 2.4)`.
The channel fraction is exact (a rational); the 2.4-power is the real power
function. -/
noncomputable def srgbGamma (v : ℚ) : ℝ :=
  if v ≤ 0.03928 then ((v : ℝ) / 12.92)
  else ((((v + 0.055) / 1.055 : ℚ) : ℝ)) ^ (2.4 : ℝ)

namespace ColorUtils

/-- RGB record returned by `hexToRgb`. -/
structure Rgb where
  r : ℤ
  g : ℤ
  b : ℤ
deriving DecidableEq

/-- The value of a two-hex-digit group of the `hexToRgb` regex (both
characters are guaranteed to be hex digits by the regex). -/
def pairVal (c1 c2 : Char) : ℤ :=
  16 * ((hexDigitVal c1).getD 0 : ℤ) + ((hexDigitVal c2).getD 0 : ℤ)

/-- `hexToRgb` of colorUtils: the regex `^#?([a-f\d]{2})([a-f\d]{2})([a-f\d]{2})$`
(case-insensitive) against the input — an optional leading `#`, then exactly
six hex digits — parsed into three channel groups; any non-match yields the
fallback `{r: 0, g: 0, b: 0}`. -/
def hexToRgb (hex : String) : Rgb :=
  let cs := match hex.data with
    | '#' :: rest => rest
    | other => other
  match cs with
  | [a, b, c, d, e, f] =>
    if (isHexDigitChar a && isHexDigitChar b && isHexDigitChar c &&
        isHexDigitChar d && isHexDigitChar e && isHexDigitChar f) then
      ⟨pairVal a b, pairVal c d, pairVal e f⟩
    else ⟨0, 0, 0⟩
  | _ => ⟨0, 0, 0⟩

/-- `rgbToHex` of colorUtils: `#` plus each channel in base 16 padded to two
digits (lowercase). -/
def rgbToHex (r g b : ℤ) : String :=
  "#" ++ byteStr r ++ byteStr g ++ byteStr b

/-- `getLuminance` of colorUtils: WCAG 2.0 relative luminance of the parsed
RGB channels. -/
noncomputable def getLuminance (hexColor : String) : ℝ :=
  let c := hexToRgb hexColor
  srgbGamma ((c.r : ℚ) / 255) * 0.2126 + srgbGamma ((c.g : ℚ) / 255) * 0.7152 +
    srgbGamma ((c.b : ℚ) / 255) * 0.0722

open Classical in
/-- `getContrastText` of colorUtils: black text over a background of relative
luminance above 0.5, white text otherwise (note the lowercase `#ffffff`). -/
noncomputable def getContrastText (hexColor : String) : String :=
  if getLuminance hexColor > 0.5 then "#000000" else "#ffffff"

/-- Truncation toward zero, as JavaScript's `%` applies to its operands. -/
def qTrunc (x : ℚ) : ℤ := if 0 ≤ x then ⌊x⌋ else -⌊-x⌋

/-- JavaScript's `%` on rationals: `a - b * trunc(a / b)` (for the positive
operands used here). -/
def jsFmod (a b : ℚ) : ℚ := a - b * (qTrunc (a / b) : ℚ)

/-- `hexToHsl` of colorUtils: channels from `hexToRgb` (so the fallback black
for non-matching input), then the same max/min HSL computation as the
generator's converter. -/
def hexToHsl (hex : String) : Generator.Hsl :=
  let c := hexToRgb hex
  Generator.hslFromRgb c.r c.g c.b

/-- `hslToHex` of colorUtils: the chroma/sector formulation.  `h` is used
un-normalized in the sector conditions; a hue outside `[0, 360)` leaves the
channel triple at the initialized zeros. -/
def hslToHex (h s l : ℚ) : String :=
  let s' := s / 100
  let l' := l / 100
  let c := (1 - |2 * l' - 1|) * s'
  let x := c * (1 - |jsFmod (h / 60) 2 - 1|)
  let m := l' - c / 2
  let rgb : ℚ × ℚ × ℚ :=
    if 0 ≤ h ∧ h < 60 then (c, x, 0)
    else if 60 ≤ h ∧ h < 120 then (x, c, 0)
    else if 120 ≤ h ∧ h < 180 then (0, c, x)
    else if 180 ≤ h ∧ h < 240 then (0, x, c)
    else if 240 ≤ h ∧ h < 300 then (x, 0, c)
    else if 300 ≤ h ∧ h < 360 then (c, 0, x)
    else (0, 0, 0)
  rgbToHex (jsRound ((rgb.1 + m) * 255)) (jsRound ((rgb.2.1 + m) * 255))
    (jsRound ((rgb.2.2 + m) * 255))

end ColorUtils

namespace LibUtils

/-- The channel parse of the local `getLuminance` in lib/utils.ts'
`getContrastRatio`: strip one leading `#` if present, then
`parseInt(substring(0,2), 16)`, `(2,4)`, `(4,6)`.  `none` models the NaN
produced on a string whose leading characters are not hex digits (or which is
too short); no theorem depends on that arm — they all assume a well-formed
6-digit hex input. -/
def channels (hex : String) : Option (ℤ × ℤ × ℤ) :=
  let cs := match hex.data with
    | '#' :: rest => rest
    | other => other
  match cs with
  | c1 :: c2 :: c3 :: c4 :: c5 :: c6 :: _ =>
    match channel? c1 c2, channel? c3 c4, channel? c5 c6 with
    | some r, some g, some b => some (r, g, b)
    | _, _, _ => none
  | _ => none

/-- The local `getLuminance` helper of `getContrastRatio` (lib/utils.ts):
WCAG 2.0 relative luminance, `0.2126*R + 0.7152*G + 0.0722*B` over the
gamma-expanded channels. -/
noncomputable def getLuminance (hex : String) : ℝ :=
  match channels hex with
  | some (r, g, b) =>
    0.2126 * srgbGamma ((r : ℚ) / 255) + 0.7152 * srgbGamma ((g : ℚ) / 255) +
      0.0722 * srgbGamma ((b : ℚ) / 255)
  | none => 0

open Classical in
/-- `getContrastRatio` of lib/utils.ts: `(L1+0.05)/(L2+0.05)` with the larger
value in the numerator. -/
noncomputable def getContrastRatio (color1 color2 : String) : ℝ :=
  let l1 := getLuminance color1 + 0.05
  let l2 := getLuminance color2 + 0.05
  if l1 > l2 then l1 / l2 else l2 / l1

/-- A well-formed 6-digit hex color `#RRGGBB` (case-insensitive digits). -/
def Valid6 (s : String) : Bool :=
  match s.data with
  | c :: rest => c == '#' && rest.length == 6 && rest.all isHexDigitChar
  | [] => false

end LibUtils

/-- C1: evaluating the code at the claim's input.  The claim (and the spec,
and the branch's own comment "Base color + 4 Neutri") says
`generatePalette("#FF0000", "MonochromaticAchromatic")` returns 5 entries
led by `#FF0000`; the deduplication loop however skips every entry whose hex
equals the base hex unless its label is exactly `"Base"`, and this scheme
labels its base entry `"Base (Accento)"`, so the base entry is dropped and
only the 4 fixed neutrals survive. -/
theorem c1_monochromatic_achromatic_eval :
    Generator.generatePalette "#FF0000" Generator.ColorSchemeType.MonochromaticAchromatic =
      [⟨"#FFFFFF", "Neutro (Bianco)"⟩, ⟨"#E5E7EB", "Neutro (Grigio Chiaro)"⟩,
       ⟨"#4B5563", "Neutro (Grigio Scuro)"⟩, ⟨"#000000", "Neutro (Nero)"⟩] := by
  decide

/-- C6: `generatePalette("#808080", "LuminosityContrast")` returns exactly 7
entries whose HSL values (recovered by `hexToHsl`) have lightness
95, 85, 70, 55, 40, 25, 10 in that order — the generated ladder
[10, 25, 40, 55, 70, 85, 95] reversed — with hue 0 and saturation 0
throughout, `#808080` being achromatic. -/
theorem c6_luminosity_contrast_ladder :
    (Generator.generatePalette "#808080" Generator.ColorSchemeType.LuminosityContrast).map
      (fun e => Generator.hexToHsl e.hex) =
      [⟨0, 0, 95⟩, ⟨0, 0, 85⟩, ⟨0, 0, 70⟩, ⟨0, 0, 55⟩,
       ⟨0, 0, 40⟩, ⟨0, 0, 25⟩, ⟨0, 0, 10⟩] := by
  decide

/-- C2 counterexample: for the valid base color `#FF0000` and the scheme
`LuminosityContrast`, the (non-empty) output contains NO entry whose hex is
the literal base color, refuting "the output always contains exactly one
entry whose hex is the literal base color". -/
theorem c2_no_base_entry_counterexample :
    Generator.generatePalette "#FF0000" Generator.ColorSchemeType.LuminosityContrast ≠ [] ∧
    (Generator.generatePalette "#FF0000" Generator.ColorSchemeType.LuminosityContrast).all
      (fun e => e.hex != "#FF0000") = true := by
  decide

/-- C3 counterexample: `"blue"` fails the validation regex, yet
`generatePalette("blue", "MonochromaticAchromatic")` is not empty (it returns
the four fixed neutral entries) — `generatePalette` itself performs no
validation; the empty-on-invalid behavior lives in the App component's
memoized guard. -/
theorem c3_invalid_input_counterexample :
    Generator.isValidHex "blue" = false ∧
    Generator.generatePalette "blue" Generator.ColorSchemeType.MonochromaticAchromatic ≠
      [] := by
  decide

/-- C4 counterexample, refuting both clauses of the original claim.
Chromatic ±1 tolerance: `hexToHsl("#000002") = (h 240, s 100, l 0)` and
`hslToHex(240, 100, 0)` is `#000000`, so the blue channel moves from 2 to 0 —
an error of 2 (the parsed channel values are read back with colorUtils'
`hexToRgb`).  Achromatic exactness: the achromatic input `#7f7f7f`
(channels 127) converts to `(h 0, s 0, l 50)` and rounds back up to
`#808080` (channels 128), so the achromatic round trip is not exact
either. -/
theorem c4_roundtrip_counterexample :
    (Generator.hexToHsl "#000002" = ⟨240, 100, 0⟩ ∧
      Generator.roundTrip "#000002" = "#000000" ∧
      (ColorUtils.hexToRgb "#000002").b = 2 ∧
      (ColorUtils.hexToRgb "#000000").b = 0) ∧
    (Generator.hexToHsl "#7f7f7f" = ⟨0, 0, 50⟩ ∧
      Generator.roundTrip "#7f7f7f" = "#808080" ∧
      Generator.roundTrip "#7f7f7f" ≠ "#7f7f7f" ∧
      (ColorUtils.hexToRgb "#7f7f7f").r = 127 ∧
      (ColorUtils.hexToRgb "#808080").r = 128) := by
  decide

/-! Structural lemmas about the deduplication loop, by induction on the
candidate list with the `seen` accumulator generalized. -/

theorem dedup_mem_hex_not_seen {scheme : Generator.ColorSchemeType} {baseHex : String} :
    ∀ (l : List Generator.Color) (seen : List String) (e : Generator.Color),
      e ∈ Generator.dedupPalette scheme baseHex l seen → e.hex ∉ seen := by
  intro l
  induction l with
  | nil =>
    intro seen e he
    simp [Generator.dedupPalette] at he
  | cons c rest ih =>
    intro seen e he
    simp only [Generator.dedupPalette] at he
    split at he
    · exact ih seen e he
    · split at he
      · exact ih seen e he
      · rename_i hskip hseen
        rcases List.mem_cons.mp he with rfl | hmem
        · exact hseen
        · have := ih (c.hex :: seen) e hmem
          intro hcontra
          exact this (List.mem_cons_of_mem _ hcontra)

theorem dedup_pairwise {scheme : Generator.ColorSchemeType} {baseHex : String} :
    ∀ (l : List Generator.Color) (seen : List String),
      (Generator.dedupPalette scheme baseHex l seen).Pairwise
        (fun a b => a.hex ≠ b.hex) := by
  intro l
  induction l with
  | nil =>
    intro seen
    simp [Generator.dedupPalette]
  | cons c rest ih =>
    intro seen
    simp only [Generator.dedupPalette]
    split
    · exact ih seen
    · split
      · exact ih seen
      · refine List.pairwise_cons.mpr ⟨fun e he => ?_, ih (c.hex :: seen)⟩
        have := dedup_mem_hex_not_seen rest (c.hex :: seen) e he
        intro hcontra
        exact this (hcontra ▸ List.mem_cons_self _ _)

theorem dedup_find_first {scheme : Generator.ColorSchemeType} {baseHex : String} :
    ∀ (l : List Generator.Color) (seen : List String) (e : Generator.Color),
      e ∈ Generator.dedupPalette scheme baseHex l seen →
      (l.filter (fun c => !decide (Generator.guardSkip scheme baseHex c))).find?
        (fun c => c.hex == e.hex) = some e := by
  intro l
  induction l with
  | nil =>
    intro seen e he
    simp [Generator.dedupPalette] at he
  | cons c rest ih =>
    intro seen e he
    simp only [Generator.dedupPalette] at he
    by_cases hg : Generator.guardSkip scheme baseHex c
    · rw [if_pos hg] at he
      rw [List.filter_cons_of_neg (by simp [hg])]
      exact ih seen e he
    · rw [if_neg hg] at he
      rw [List.filter_cons_of_pos (by simp [hg])]
      by_cases hs : c.hex ∈ seen
      · rw [if_pos hs] at he
        have hne : e.hex ≠ c.hex := by
          intro hcontra
          exact dedup_mem_hex_not_seen rest seen e he (hcontra ▸ hs)
        rw [List.find?_cons_of_neg _ (by simp [Ne.symm hne])]
        exact ih seen e he
      · rw [if_neg hs] at he
        rcases List.mem_cons.mp he with rfl | hmem
        · rw [List.find?_cons_of_pos _ (by simp)]
        · have hnot := dedup_mem_hex_not_seen rest (c.hex :: seen) e hmem
          have hne : c.hex ≠ e.hex := by
            intro hcontra
            exact hnot (hcontra ▸ List.mem_cons_self _ _)
          rw [List.find?_cons_of_neg _ (by simp [hne])]
          exact ih (c.hex :: seen) e hmem

theorem generatePalette_base_head (baseHex : String)
    (scheme : Generator.ColorSchemeType) (l : List Generator.Color)
    (hraw : Generator.rawPalette baseHex scheme = ⟨baseHex, "Base"⟩ :: l) :
    Generator.generatePalette baseHex scheme =
      (⟨baseHex, "Base"⟩ : Generator.Color) ::
        Generator.dedupPalette scheme baseHex l [baseHex] := by
  unfold Generator.generatePalette
  rw [hraw]
  simp only [Generator.dedupPalette]
  rw [if_neg (fun h => h.2.2 rfl), if_neg (by simp)]

/-- C2 amended: the deduplication behavior that actually holds.  For every
base string and scheme: (1) the output never contains two entries with the
same hex; (2) every emitted entry is the first guard-surviving candidate with
its hex — later duplicates are dropped and the first occurrence's label wins;
(3) for the five shade schemes (Analogous, Complementary, Triadic,
SplitComplementary, Tetradic) the output starts with the entry
`{hex: baseHex, description: "Base"}` and no later entry carries the base
hex.  The original claim's further assertion that EVERY scheme emits exactly
one base-hex entry is refuted separately: LuminosityContrast never injects
the base entry, and Monochromatic/MonochromaticAchromatic drop it in the
dedup guard. -/
theorem c2_dedup_behavior (baseHex : String) (scheme : Generator.ColorSchemeType) :
    (Generator.generatePalette baseHex scheme).Pairwise (fun a b => a.hex ≠ b.hex) ∧
    (∀ e ∈ Generator.generatePalette baseHex scheme,
      ((Generator.rawPalette baseHex scheme).filter
        (fun c => !decide (Generator.guardSkip scheme baseHex c))).find?
        (fun c => c.hex == e.hex) = some e) ∧
    ((scheme = Generator.ColorSchemeType.Analogous ∨
      scheme = Generator.ColorSchemeType.Complementary ∨
      scheme = Generator.ColorSchemeType.Triadic ∨
      scheme = Generator.ColorSchemeType.SplitComplementary ∨
      scheme = Generator.ColorSchemeType.Tetradic) →
      ∃ rest, Generator.generatePalette baseHex scheme =
        (⟨baseHex, "Base"⟩ : Generator.Color) :: rest ∧
        ∀ e ∈ rest, e.hex ≠ baseHex) := by
  refine ⟨dedup_pairwise _ _, fun e he => dedup_find_first _ _ e he, fun hs => ?_⟩
  have hhead : ∃ l, Generator.rawPalette baseHex scheme =
      (⟨baseHex, "Base"⟩ : Generator.Color) :: l := by
    rcases hs with rfl | rfl | rfl | rfl | rfl <;> exact ⟨_, rfl⟩
  obtain ⟨l, hraw⟩ := hhead
  refine ⟨Generator.dedupPalette scheme baseHex l [baseHex],
    generatePalette_base_head baseHex scheme l hraw, fun e he => ?_⟩
  have := dedup_mem_hex_not_seen l [baseHex] e he
  intro hcontra
  exact this (by simp [hcontra])

/-- C2 witness: the amended theorem at a concrete base color and scheme,
discharging the shade-scheme hypothesis. -/
theorem c2_dedup_behavior_witness :
    ∃ rest, Generator.generatePalette "#123456" Generator.ColorSchemeType.Triadic =
      (⟨"#123456", "Base"⟩ : Generator.Color) :: rest := by
  obtain ⟨rest, hrest, -⟩ :=
    (c2_dedup_behavior "#123456" Generator.ColorSchemeType.Triadic).2.2
      (Or.inr (Or.inr (Or.inl rfl)))
  exact ⟨rest, hrest⟩

/-- C7 counterexample: `hslToHex` renders its output with lowercase hex
digits (`toString(16)`), so pure red is `"#ff0000"`, not the uppercase
`"#FF0000"` the claim requires. -/
theorem c7_lowercase_counterexample :
    Generator.hslToHex 0 100 50 = "#ff0000" ∧
    Generator.hslToHex 0 100 50 ≠ "#FF0000" := by
  decide

/-! Evaluation lemmas for the gamma expansion and the two luminance
functions at the handful of exactly-representable inputs the accessibility
claims need (every channel 0 or 255, where the 2.4-power is applied to 0 or
1 and is exact). -/

theorem srgbGamma_eval_zero : srgbGamma 0 = 0 := by
  unfold srgbGamma
  rw [if_pos (by norm_num)]
  norm_num

theorem srgbGamma_eval_one : srgbGamma 1 = 1 := by
  unfold srgbGamma
  rw [if_neg (by norm_num)]
  have h1 : ((1 : ℚ) + 0.055) / 1.055 = 1 := by norm_num
  rw [h1, Rat.cast_one, Real.one_rpow]

theorem cu_lum_red : ColorUtils.getLuminance "#FF0000" = 0.2126 := by
  have h : ColorUtils.hexToRgb "#FF0000" = ⟨255, 0, 0⟩ := by decide
  simp only [ColorUtils.getLuminance, h]
  have e1 : (((255 : ℤ) : ℚ)) / 255 = 1 := by norm_num
  have e0 : (((0 : ℤ) : ℚ)) / 255 = 0 := by norm_num
  rw [e1, e0, srgbGamma_eval_one, srgbGamma_eval_zero]
  norm_num

theorem cu_lum_white : ColorUtils.getLuminance "#FFFFFF" = 1 := by
  have h : ColorUtils.hexToRgb "#FFFFFF" = ⟨255, 255, 255⟩ := by decide
  simp only [ColorUtils.getLuminance, h]
  have e1 : (((255 : ℤ) : ℚ)) / 255 = 1 := by norm_num
  rw [e1, srgbGamma_eval_one]
  norm_num

theorem cu_lum_black : ColorUtils.getLuminance "#000000" = 0 := by
  have h : ColorUtils.hexToRgb "#000000" = ⟨0, 0, 0⟩ := by decide
  simp only [ColorUtils.getLuminance, h]
  have e0 : (((0 : ℤ) : ℚ)) / 255 = 0 := by norm_num
  rw [e0, srgbGamma_eval_zero]
  norm_num

theorem lu_lum_red : LibUtils.getLuminance "#FF0000" = 0.2126 := by
  have h : LibUtils.channels "#FF0000" = some (255, 0, 0) := by decide
  simp only [LibUtils.getLuminance, h]
  have e1 : (((255 : ℤ) : ℚ)) / 255 = 1 := by norm_num
  have e0 : (((0 : ℤ) : ℚ)) / 255 = 0 := by norm_num
  rw [e1, e0, srgbGamma_eval_one, srgbGamma_eval_zero]
  norm_num

theorem lu_lum_white : LibUtils.getLuminance "#FFFFFF" = 1 := by
  have h : LibUtils.channels "#FFFFFF" = some (255, 255, 255) := by decide
  simp only [LibUtils.getLuminance, h]
  have e1 : (((255 : ℤ) : ℚ)) / 255 = 1 := by norm_num
  rw [e1, srgbGamma_eval_one]
  norm_num

theorem lu_lum_black : LibUtils.getLuminance "#000000" = 0 := by
  have h : LibUtils.channels "#000000" = some (0, 0, 0) := by decide
  simp only [LibUtils.getLuminance, h]
  have e0 : (((0 : ℤ) : ℚ)) / 255 = 0 := by norm_num
  rw [e0, srgbGamma_eval_zero]
  norm_num

/-- C5 counterexample: the 0.5-luminance threshold does NOT coincide with
picking the text color of higher WCAG contrast ratio.  `#FF0000` has relative
luminance exactly 0.2126 ≤ 0.5, so `getContrastText` picks white — yet black
text has contrast ratio 0.2626/0.05 = 5.252 against it, higher than white's
1.05/0.2626 ≈ 3.999. -/
theorem c5_threshold_vs_contrast_counterexample :
    ColorUtils.getContrastText "#FF0000" = "#ffffff" ∧
    LibUtils.getContrastRatio "#FFFFFF" "#FF0000" <
      LibUtils.getContrastRatio "#000000" "#FF0000" := by
  constructor
  · simp only [ColorUtils.getContrastText, cu_lum_red]
    rw [if_neg (by norm_num)]
  · simp only [LibUtils.getContrastRatio, lu_lum_white, lu_lum_red, lu_lum_black]
    rw [if_pos (by norm_num), if_neg (by norm_num)]
    norm_num

/-- C5 amended: `readableTextColor` (the source's `getContrastText`) returns
`"#000000"` when the background's relative luminance exceeds 0.5 and the
lowercase `"#ffffff"` otherwise; in particular white maps to black text and
black maps to white text (lowercase).  The claim's further assertion that
this threshold decision always coincides with the higher-contrast choice is
refuted separately. -/
theorem c5_threshold_decision (bg : String) :
    (ColorUtils.getLuminance bg > 0.5 → ColorUtils.getContrastText bg = "#000000") ∧
    (¬ ColorUtils.getLuminance bg > 0.5 → ColorUtils.getContrastText bg = "#ffffff") ∧
    ColorUtils.getContrastText "#FFFFFF" = "#000000" ∧
    ColorUtils.getContrastText "#000000" = "#ffffff" := by
  refine ⟨fun h => ?_, fun h => ?_, ?_, ?_⟩
  · simp only [ColorUtils.getContrastText]
    rw [if_pos h]
  · simp only [ColorUtils.getContrastText]
    rw [if_neg h]
  · simp only [ColorUtils.getContrastText, cu_lum_white]
    rw [if_pos (by norm_num)]
  · simp only [ColorUtils.getContrastText, cu_lum_black]
    rw [if_neg (by norm_num)]

/-- C5 witness: the amended theorem applied at `#FFFFFF`, discharging the
luminance hypothesis with the computed luminance 1. -/
theorem c5_threshold_decision_witness :
    ColorUtils.getContrastText "#FFFFFF" = "#000000" := by
  exact (c5_threshold_decision "#FFFFFF").1 (by rw [cu_lum_white]; norm_num)

/-- C10: colorUtils' accessibility path accepts only 6-digit hex.  For every
3-digit shorthand `#xyz` (hex digits x, y, z), the `hexToRgb` regex fails, so
the fallback `{r:0, g:0, b:0}` is returned, `getLuminance` is 0 and
`getContrastText` yields `"#ffffff"` — the shorthand is treated as black, not
expanded by nibble duplication. -/
theorem c10_shorthand_is_black (c1 c2 c3 : Char)
    (h1 : isHexDigitChar c1 = true) (h2 : isHexDigitChar c2 = true)
    (h3 : isHexDigitChar c3 = true) :
    ColorUtils.hexToRgb (String.mk ['#', c1, c2, c3]) = ⟨0, 0, 0⟩ ∧
    ColorUtils.getLuminance (String.mk ['#', c1, c2, c3]) = 0 ∧
    ColorUtils.getContrastText (String.mk ['#', c1, c2, c3]) = "#ffffff" := by
  have hrgb : ColorUtils.hexToRgb (String.mk ['#', c1, c2, c3]) = ⟨0, 0, 0⟩ := rfl
  have hlum : ColorUtils.getLuminance (String.mk ['#', c1, c2, c3]) = 0 := by
    simp only [ColorUtils.getLuminance, hrgb]
    have e0 : (((0 : ℤ) : ℚ)) / 255 = 0 := by norm_num
    rw [e0, srgbGamma_eval_zero]
    norm_num
  refine ⟨hrgb, hlum, ?_⟩
  simp only [ColorUtils.getContrastText, hlum]
  rw [if_neg (by norm_num)]

theorem hexDigitVal_le {c : Char} {v : ℕ} (h : hexDigitVal c = some v) : v ≤ 15 := by
  simp only [hexDigitVal] at h
  split_ifs at h with h1 h2 h3 <;> simp only [Option.some.injEq] at h <;> omega

theorem srgbGamma_nonneg (v : ℚ) (h0 : 0 ≤ v) : 0 ≤ srgbGamma v := by
  unfold srgbGamma
  split
  · have hv : (0 : ℝ) ≤ (v : ℝ) := by exact_mod_cast h0
    positivity
  · apply Real.rpow_nonneg
    have hq : (0 : ℚ) ≤ (v + 0.055) / 1.055 := by
      apply div_nonneg <;> [linarith; norm_num]
    exact_mod_cast hq

theorem srgbGamma_le_one (v : ℚ) (h1 : v ≤ 1) : srgbGamma v ≤ 1 := by
  unfold srgbGamma
  split
  · rename_i hsmall
    rw [div_le_one (by norm_num)]
    have hv : (v : ℝ) ≤ ((0.03928 : ℚ) : ℝ) := by exact_mod_cast hsmall
    have hlit : ((0.03928 : ℚ) : ℝ) ≤ 12.92 := by norm_num
    linarith
  · rename_i hbig
    push_neg at hbig
    apply Real.rpow_le_one
    · have hq : (0 : ℚ) ≤ (v + 0.055) / 1.055 := by
        apply div_nonneg <;> [linarith; norm_num]
      exact_mod_cast hq
    · have hq : ((v + 0.055) / 1.055 : ℚ) ≤ 1 := by
        rw [div_le_one (by norm_num)]
        linarith
      exact_mod_cast hq
    · norm_num

theorem channel?_of_digits {c1 c2 : Char} (h1 : isHexDigitChar c1 = true)
    (h2 : isHexDigitChar c2 = true) :
    ∃ v : ℤ, channel? c1 c2 = some v ∧ 0 ≤ v ∧ v ≤ 255 := by
  simp only [isHexDigitChar, Option.isSome_iff_exists] at h1 h2
  obtain ⟨v1, hv1⟩ := h1
  obtain ⟨v2, hv2⟩ := h2
  have b1 := hexDigitVal_le hv1
  have b2 := hexDigitVal_le hv2
  refine ⟨16 * (v1 : ℤ) + (v2 : ℤ), ?_, by omega, by omega⟩
  simp only [channel?]
  rw [hv1, hv2]

theorem valid6_channels {s : String} (h : LibUtils.Valid6 s = true) :
    ∃ r g b : ℤ, LibUtils.channels s = some (r, g, b) ∧
      0 ≤ r ∧ r ≤ 255 ∧ 0 ≤ g ∧ g ≤ 255 ∧ 0 ≤ b ∧ b ≤ 255 := by
  obtain ⟨data⟩ := s
  cases data with
  | nil => simp [LibUtils.Valid6] at h
  | cons c rest =>
    simp only [LibUtils.Valid6, Bool.and_eq_true, beq_iff_eq, List.all_eq_true] at h
    obtain ⟨⟨hc, hlen⟩, hall⟩ := h
    subst hc
    rcases rest with _ | ⟨a, _ | ⟨b, _ | ⟨c2, _ | ⟨d, _ | ⟨e, _ | ⟨f, _ | ⟨g2, t⟩⟩⟩⟩⟩⟩⟩ <;>
      simp only [List.length_cons, List.length_nil] at hlen <;> try omega
    simp only [List.mem_cons, List.not_mem_nil, forall_eq_or_imp, forall_eq,
      List.mem_singleton, or_false, false_implies, and_true] at hall
    obtain ⟨ha, hb, hc2, hd, he, hf⟩ := hall
    obtain ⟨r, hr, hr0, hr1⟩ := channel?_of_digits ha hb
    obtain ⟨g, hg, hg0, hg1⟩ := channel?_of_digits hc2 hd
    obtain ⟨b', hb', hb0, hb1⟩ := channel?_of_digits he hf
    refine ⟨r, g, b', ?_, hr0, hr1, hg0, hg1, hb0, hb1⟩
    simp only [LibUtils.channels]
    rw [hr, hg, hb']

theorem lu_lum_bounds {s : String} (h : LibUtils.Valid6 s = true) :
    0 ≤ LibUtils.getLuminance s ∧ LibUtils.getLuminance s ≤ 1 := by
  obtain ⟨r, g, b, hch, hr0, hr1, hg0, hg1, hb0, hb1⟩ := valid6_channels h
  simp only [LibUtils.getLuminance, hch]
  have nr := srgbGamma_nonneg ((r : ℚ) / 255) (by positivity)
  have ng := srgbGamma_nonneg ((g : ℚ) / 255) (by positivity)
  have nb := srgbGamma_nonneg ((b : ℚ) / 255) (by positivity)
  have or1 : ((r : ℚ)) / 255 ≤ 1 := by
    rw [div_le_one (by norm_num)]
    exact_mod_cast hr1
  have og1 : ((g : ℚ)) / 255 ≤ 1 := by
    rw [div_le_one (by norm_num)]
    exact_mod_cast hg1
  have ob1 : ((b : ℚ)) / 255 ≤ 1 := by
    rw [div_le_one (by norm_num)]
    exact_mod_cast hb1
  have ur := srgbGamma_le_one ((r : ℚ) / 255) or1
  have ug := srgbGamma_le_one ((g : ℚ) / 255) og1
  have ub := srgbGamma_le_one ((b : ℚ) / 255) ob1
  constructor <;> nlinarith [nr, ng, nb, ur, ug, ub]

/-- C8: `getContrastRatio` lies in [1, 21] for valid 6-digit hex colors, it
always equals the larger of the two offset luminances over the smaller
(larger luminance in the numerator, hence ≥ 1), identical valid colors give
exactly 1, and black against white gives exactly 21. -/
theorem c8_contrast_ratio :
    (∀ A B : String, LibUtils.Valid6 A = true → LibUtils.Valid6 B = true →
      1 ≤ LibUtils.getContrastRatio A B ∧ LibUtils.getContrastRatio A B ≤ 21) ∧
    (∀ A B : String,
      LibUtils.getContrastRatio A B =
        max (LibUtils.getLuminance A + 0.05) (LibUtils.getLuminance B + 0.05) /
          min (LibUtils.getLuminance A + 0.05) (LibUtils.getLuminance B + 0.05)) ∧
    (∀ A : String, LibUtils.Valid6 A = true → LibUtils.getContrastRatio A A = 1) ∧
    LibUtils.getContrastRatio "#000000" "#FFFFFF" = 21 := by
  refine ⟨?_, ?_, ?_, ?_⟩
  · intro A B hA hB
    obtain ⟨hA0, hA1⟩ := lu_lum_bounds hA
    obtain ⟨hB0, hB1⟩ := lu_lum_bounds hB
    simp only [LibUtils.getContrastRatio]
    split
    · rename_i hgt
      constructor
      · rw [le_div_iff (by linarith)]
        linarith
      · rw [div_le_iff (by linarith)]
        linarith
    · rename_i hle
      push_neg at hle
      constructor
      · rw [le_div_iff (by linarith)]
        linarith
      · rw [div_le_iff (by linarith)]
        linarith
  · intro A B
    simp only [LibUtils.getContrastRatio]
    split
    · rename_i hgt
      rw [max_eq_left (le_of_lt hgt), min_eq_right (le_of_lt hgt)]
    · rename_i hle
      push_neg at hle
      rw [max_eq_right hle, min_eq_left hle]
  · intro A hA
    obtain ⟨hA0, _⟩ := lu_lum_bounds hA
    simp only [LibUtils.getContrastRatio]
    rw [if_neg (lt_irrefl _)]
    exact div_self (by linarith)
  · simp only [LibUtils.getContrastRatio, lu_lum_black, lu_lum_white]
    rw [if_neg (by norm_num)]
    norm_num

/-- C8 witness: the bounds and the identical-color clause at concrete
colors. -/
theorem c8_contrast_ratio_witness :
    (1 ≤ LibUtils.getContrastRatio "#000000" "#FFFFFF" ∧
      LibUtils.getContrastRatio "#000000" "#FFFFFF" ≤ 21) ∧
    LibUtils.getContrastRatio "#FF0000" "#FF0000" = 1 :=
  ⟨c8_contrast_ratio.1 "#000000" "#FFFFFF" (by decide) (by decide),
   c8_contrast_ratio.2.2.1 "#FF0000" (by decide)⟩

/-- C10 witness: the theorem at the concrete shorthand `#FFF`. -/
theorem c10_shorthand_is_black_witness :
    ColorUtils.hexToRgb (String.mk ['#', 'F', 'F', 'F']) = ⟨0, 0, 0⟩ ∧
    ColorUtils.getLuminance (String.mk ['#', 'F', 'F', 'F']) = 0 ∧
    ColorUtils.getContrastText (String.mk ['#', 'F', 'F', 'F']) = "#ffffff" :=
  c10_shorthand_is_black 'F' 'F' 'F' (by decide) (by decide) (by decide)

/-! Arithmetic bounds for the HSL-to-hex conversion: the `hue2rgb` output
stays between `p` and `q`, the `p`/`q` pair stays in `[0, 1]`, and a `[0, 1]`
channel rounds to a byte in `[0, 255]`. -/

theorem hue2rgb_mem {p q t : ℚ} (hpq : p ≤ q) (ht0 : -(1/3 : ℚ) ≤ t)
    (ht1 : t ≤ 4/3) :
    p ≤ Generator.hue2rgb p q t ∧ Generator.hue2rgb p q t ≤ q := by
  simp only [Generator.hue2rgb]
  split_ifs <;> constructor <;> nlinarith

theorem hsl_q_bounds {s l : ℚ} (hs0 : 0 ≤ s) (hs1 : s ≤ 1) (hl0 : 0 ≤ l)
    (hl1 : l ≤ 1) :
    2 * l - (if l < 1/2 then l * (1 + s) else l + s - l * s) ≤
      (if l < 1/2 then l * (1 + s) else l + s - l * s) ∧
    0 ≤ 2 * l - (if l < 1/2 then l * (1 + s) else l + s - l * s) ∧
    (if l < 1/2 then l * (1 + s) else l + s - l * s) ≤ 1 := by
  split_ifs with h <;> refine ⟨?_, ?_, ?_⟩ <;> nlinarith

theorem jsRound_byte_range {c : ℚ} (h0 : 0 ≤ c) (h1 : c ≤ 1) :
    0 ≤ jsRound (c * 255) ∧ jsRound (c * 255) ≤ 255 := by
  unfold jsRound
  constructor
  · exact Int.floor_nonneg.mpr (by linarith)
  · have hlt : ⌊c * 255 + 1/2⌋ < 256 := Int.floor_lt.mpr (by push_cast; linarith)
    omega

theorem hexDigitChar_mem_alphabet {n : ℕ} (h : n ≤ 15) :
    hexDigitChar n ∈ ("0123456789abcdef").data := by
  have key : ∀ i : Fin 16, hexDigitChar (i : ℕ) ∈ ("0123456789abcdef").data := by
    decide
  have := key ⟨n, by omega⟩
  exact this

theorem hexDigitChar_inj {a b : ℕ} (ha : a ≤ 15) (hb : b ≤ 15)
    (h : hexDigitChar a = hexDigitChar b) : a = b := by
  have key : ∀ i j : Fin 16, hexDigitChar (i : ℕ) = hexDigitChar (j : ℕ) → i = j := by
    decide
  have := key ⟨a, by omega⟩ ⟨b, by omega⟩ h
  exact congrArg Fin.val this

theorem natToHexAux_byte {m : ℕ} (h : m < 256) :
    natToHexAux (m + 1) m =
      if m < 16 then [hexDigitChar m]
      else [hexDigitChar (m / 16), hexDigitChar (m % 16)] := by
  by_cases hsmall : m < 16
  · simp [natToHexAux, hsmall]
  · have hm1 : ∃ m', m = m' + 1 := ⟨m - 1, by omega⟩
    obtain ⟨m', rfl⟩ := hm1
    rw [if_neg hsmall]
    show natToHexAux (m' + 1 + 1) (m' + 1) = _
    rw [natToHexAux]
    rw [if_neg hsmall]
    have hdiv : (m' + 1) / 16 < 16 := by omega
    have hdivpos : 1 ≤ (m' + 1) / 16 := by omega
    have : natToHexAux (m' + 1) ((m' + 1) / 16) = [hexDigitChar ((m' + 1) / 16)] := by
      obtain ⟨k, hk⟩ : ∃ k, m' = k + 1 := ⟨m' - 1, by omega⟩
      subst hk
      rw [natToHexAux]
      rw [if_pos hdiv]
    rw [this]
    rfl

theorem byteStr_data {n : ℤ} (h0 : 0 ≤ n) (h1 : n ≤ 255) :
    (byteStr n).data = [hexDigitChar (n.toNat / 16), hexDigitChar (n.toNat % 16)] := by
  obtain ⟨m, rfl⟩ := Int.eq_ofNat_of_zero_le h0
  have hm : m < 256 := by omega
  have htn : ((m : ℤ)).toNat = m := by omega
  simp only [byteStr, intToHex, natToHex, htn]
  rw [if_neg (show ¬((m : ℤ) < 0) by omega)]
  rw [natToHexAux_byte hm]
  by_cases hsmall : m < 16
  · rw [if_pos hsmall]
    rw [if_pos (show (String.mk [hexDigitChar m]).length = 1 from rfl)]
    have hdiv : m / 16 = 0 := by omega
    have hmod : m % 16 = m := by omega
    rw [hdiv, hmod]
    rfl
  · rw [if_neg hsmall]
    rw [if_neg (show ¬(String.mk
        [hexDigitChar (m / 16), hexDigitChar (m % 16)]).length = 1 by
      show ¬(2 = 1)
      omega)]

theorem byteStr_inj {a b : ℤ} (ha0 : 0 ≤ a) (ha1 : a ≤ 255) (hb0 : 0 ≤ b)
    (hb1 : b ≤ 255) (h : byteStr a = byteStr b) : a = b := by
  have da := byteStr_data ha0 ha1
  have db := byteStr_data hb0 hb1
  have hdata : (byteStr a).data = (byteStr b).data := by rw [h]
  rw [da, db] at hdata
  simp only [List.cons.injEq, and_true] at hdata
  obtain ⟨h16, hmod⟩ := hdata
  have e1 : a.toNat / 16 = b.toNat / 16 :=
    hexDigitChar_inj (by omega) (by omega) h16
  have e2 : a.toNat % 16 = b.toNat % 16 :=
    hexDigitChar_inj (by omega) (by omega) hmod
  omega

theorem toHex_data {c : ℚ} (h0 : 0 ≤ c) (h1 : c ≤ 1) :
    ∃ a b : Char, (Generator.toHex c).data = [a, b] ∧
      a ∈ ("0123456789abcdef").data ∧ b ∈ ("0123456789abcdef").data := by
  obtain ⟨hb0, hb1⟩ := jsRound_byte_range h0 h1
  refine ⟨_, _, byteStr_data hb0 hb1, ?_, ?_⟩ <;>
    exact hexDigitChar_mem_alphabet (by omega)

/-- C7 amended: every `hslToHex` output (for a hue in `[0, 360]` and
saturation/lightness percentages in `[0, 100]`) is a 7-character string
`#rrggbb` whose six digit characters are LOWERCASE hex digits — not the
uppercase digits the claim states (`toString(16)` renders lowercase). -/
theorem c7_hslToHex_lowercase_format (h s l : ℤ) (hh0 : 0 ≤ h) (hh1 : h ≤ 360)
    (hs0 : 0 ≤ s) (hs1 : s ≤ 100) (hl0 : 0 ≤ l) (hl1 : l ≤ 100) :
    ∃ t : List Char,
      (Generator.hslToHex (h : ℚ) (s : ℚ) (l : ℚ)).data = '#' :: t ∧
      t.length = 6 ∧ ∀ c ∈ t, c ∈ ("0123456789abcdef").data := by
  have hq0 : (0 : ℚ) ≤ (h : ℚ) := by exact_mod_cast hh0
  have hq1 : (h : ℚ) ≤ 360 := by exact_mod_cast hh1
  have sq0 : (0 : ℚ) ≤ (s : ℚ) := by exact_mod_cast hs0
  have sq1 : (s : ℚ) ≤ 100 := by exact_mod_cast hs1
  have lq0 : (0 : ℚ) ≤ (l : ℚ) := by exact_mod_cast hl0
  have lq1 : (l : ℚ) ≤ 100 := by exact_mod_cast hl1
  have hl'0 : (0 : ℚ) ≤ (l : ℚ) / 100 := by linarith
  have hl'1 : (l : ℚ) / 100 ≤ 1 := by linarith
  have hs'0 : (0 : ℚ) ≤ (s : ℚ) / 100 := by linarith
  have hs'1 : (s : ℚ) / 100 ≤ 1 := by linarith
  have hh'0 : (0 : ℚ) ≤ (h : ℚ) / 360 := by linarith
  have hh'1 : (h : ℚ) / 360 ≤ 1 := by linarith
  simp only [Generator.hslToHex]
  by_cases hsz : (s : ℚ) / 100 = 0
  · rw [if_pos hsz]
    obtain ⟨a, b, e, ma, mb⟩ := toHex_data hl'0 hl'1
    refine ⟨[a, b, a, b, a, b], ?_, rfl, ?_⟩
    · simp only [String.data_append, e]
      rfl
    · intro c hc
      simp only [List.mem_cons, List.not_mem_nil, or_false] at hc
      rcases hc with rfl | rfl | rfl | rfl | rfl | rfl <;> first | exact ma | exact mb
  · rw [if_neg hsz]
    set q : ℚ := (if (l : ℚ) / 100 < 1/2 then (l : ℚ) / 100 * (1 + (s : ℚ) / 100)
      else (l : ℚ) / 100 + (s : ℚ) / 100 - (l : ℚ) / 100 * ((s : ℚ) / 100)) with hqdef
    set p : ℚ := 2 * ((l : ℚ) / 100) - q with hpdef
    have hb := hsl_q_bounds hs'0 hs'1 hl'0 hl'1
    rw [← hqdef, ← hpdef] at hb
    obtain ⟨hpq, hp0, hq1'⟩ := hb
    have hc1 := hue2rgb_mem (p := p) (q := q) hpq
      (t := (h : ℚ) / 360 + 1/3) (by linarith) (by linarith)
    have hc2 := hue2rgb_mem (p := p) (q := q) hpq
      (t := (h : ℚ) / 360) (by linarith) (by linarith)
    have hc3 := hue2rgb_mem (p := p) (q := q) hpq
      (t := (h : ℚ) / 360 - 1/3) (by linarith) (by linarith)
    obtain ⟨a1, b1, e1, m1a, m1b⟩ :=
      toHex_data (c := Generator.hue2rgb p q ((h : ℚ) / 360 + 1/3))
        (le_trans hp0 hc1.1) (le_trans hc1.2 hq1')
    obtain ⟨a2, b2, e2, m2a, m2b⟩ :=
      toHex_data (c := Generator.hue2rgb p q ((h : ℚ) / 360))
        (le_trans hp0 hc2.1) (le_trans hc2.2 hq1')
    obtain ⟨a3, b3, e3, m3a, m3b⟩ :=
      toHex_data (c := Generator.hue2rgb p q ((h : ℚ) / 360 - 1/3))
        (le_trans hp0 hc3.1) (le_trans hc3.2 hq1')
    refine ⟨[a1, b1, a2, b2, a3, b3], ?_, rfl, ?_⟩
    · simp only [String.data_append, e1, e2, e3]
      rfl
    · intro c hc
      simp only [List.mem_cons, List.not_mem_nil, or_false] at hc
      rcases hc with rfl | rfl | rfl | rfl | rfl | rfl <;>
        first | exact m1a | exact m1b | exact m2a | exact m2b | exact m3a | exact m3b

/-- C7 witness: the format theorem at the concrete HSL input (120, 50, 60). -/
theorem c7_hslToHex_lowercase_format_witness :
    ∃ t : List Char,
      (Generator.hslToHex (((120 : ℤ)) : ℚ) (((50 : ℤ)) : ℚ) (((60 : ℤ)) : ℚ)).data =
        '#' :: t ∧
      t.length = 6 ∧ ∀ c ∈ t, c ∈ ("0123456789abcdef").data :=
  c7_hslToHex_lowercase_format 120 50 60 (by decide) (by decide) (by decide)
    (by decide) (by decide) (by decide)

theorem channel?_bounds {a b : Char} {v : ℤ} (h : channel? a b = some v) :
    0 ≤ v ∧ v ≤ 255 := by
  simp only [channel?] at h
  rcases hva : hexDigitVal a with _ | v1 <;> rw [hva] at h <;> simp at h
  have b1 := hexDigitVal_le hva
  rcases hvb : hexDigitVal b with _ | v2 <;> rw [hvb] at h <;> simp at h
  · omega
  · have b2 := hexDigitVal_le hvb
    omega

/-- C4 amended: for EVERY valid achromatic 6-digit hex string — `'#'`
followed by six digit characters of any case whose three parsed channel
pairs agree on one byte value `v` — `hexToHsl` fixes hue and saturation
to 0, and the round trip `hslToHex(hexToHsl(X))` returns an achromatic
string whose common channel value differs from `v` by at most 1.  The
original claim's exactness fails (127 rounds back up to 128) and its ±1
tolerance for arbitrary colors fails at `#000002`: both are proved in the
counterexample theorem. -/
theorem c4_achromatic_roundtrip (c1 c2 c3 c4 c5 c6 : Char) (v : ℤ)
    (h12 : channel? c1 c2 = some v) (h34 : channel? c3 c4 = some v)
    (h56 : channel? c5 c6 = some v) :
    (Generator.hexToHsl (String.mk ['#', c1, c2, c3, c4, c5, c6])).h = 0 ∧
    (Generator.hexToHsl (String.mk ['#', c1, c2, c3, c4, c5, c6])).s = 0 ∧
    ∃ w : ℤ,
      Generator.roundTrip (String.mk ['#', c1, c2, c3, c4, c5, c6]) =
        "#" ++ byteStr w ++ byteStr w ++ byteStr w ∧
      w - v ≤ 1 ∧ v - w ≤ 1 := by
  obtain ⟨hv0, hv1⟩ := channel?_bounds h12
  have hred : Generator.hexToHsl (String.mk ['#', c1, c2, c3, c4, c5, c6]) =
      Generator.hslFromRgb v v v := by
    simp only [Generator.hexToHsl]
    rw [h12, h34, h56]
  have key : ∀ i : Fin 256,
      (Generator.hslFromRgb ((i : ℕ) : ℤ) ((i : ℕ) : ℤ) ((i : ℕ) : ℤ)).h = 0 ∧
      (Generator.hslFromRgb ((i : ℕ) : ℤ) ((i : ℕ) : ℤ) ((i : ℕ) : ℤ)).s = 0 ∧
      Generator.hslToHex
          (((Generator.hslFromRgb ((i : ℕ) : ℤ) ((i : ℕ) : ℤ) ((i : ℕ) : ℤ)).h : ℚ))
          (((Generator.hslFromRgb ((i : ℕ) : ℤ) ((i : ℕ) : ℤ) ((i : ℕ) : ℤ)).s : ℚ))
          (((Generator.hslFromRgb ((i : ℕ) : ℤ) ((i : ℕ) : ℤ) ((i : ℕ) : ℤ)).l : ℚ)) =
        "#" ++
          byteStr (jsRound
            (((Generator.hslFromRgb ((i : ℕ) : ℤ) ((i : ℕ) : ℤ) ((i : ℕ) : ℤ)).l : ℚ)
              / 100 * 255)) ++
          byteStr (jsRound
            (((Generator.hslFromRgb ((i : ℕ) : ℤ) ((i : ℕ) : ℤ) ((i : ℕ) : ℤ)).l : ℚ)
              / 100 * 255)) ++
          byteStr (jsRound
            (((Generator.hslFromRgb ((i : ℕ) : ℤ) ((i : ℕ) : ℤ) ((i : ℕ) : ℤ)).l : ℚ)
              / 100 * 255)) ∧
      jsRound
          (((Generator.hslFromRgb ((i : ℕ) : ℤ) ((i : ℕ) : ℤ) ((i : ℕ) : ℤ)).l : ℚ)
            / 100 * 255) - ((i : ℕ) : ℤ) ≤ 1 ∧
      ((i : ℕ) : ℤ) - jsRound
          (((Generator.hslFromRgb ((i : ℕ) : ℤ) ((i : ℕ) : ℤ) ((i : ℕ) : ℤ)).l : ℚ)
            / 100 * 255) ≤ 1 := by
    decide
  have hfin := key ⟨v.toNat, by omega⟩
  dsimp only at hfin
  rw [show ((v.toNat : ℕ) : ℤ) = v by omega] at hfin
  refine ⟨by rw [hred]; exact hfin.1, by rw [hred]; exact hfin.2.1,
    jsRound (((Generator.hslFromRgb v v v).l : ℚ) / 100 * 255), ?_,
    hfin.2.2.2.1, hfin.2.2.2.2⟩
  show Generator.roundTrip _ = _
  simp only [Generator.roundTrip]
  rw [hred]
  exact hfin.2.2.1

/-- C4 witness: the amended theorem at the mixed-case achromatic input
`#7F7f7F` (channels 127), where the round trip lands within ±1 (at 128). -/
theorem c4_achromatic_roundtrip_witness :
    (Generator.hexToHsl (String.mk ['#', '7', 'F', '7', 'f', '7', 'F'])).h = 0 ∧
    (Generator.hexToHsl (String.mk ['#', '7', 'F', '7', 'f', '7', 'F'])).s = 0 ∧
    ∃ w : ℤ,
      Generator.roundTrip (String.mk ['#', '7', 'F', '7', 'f', '7', 'F']) =
        "#" ++ byteStr w ++ byteStr w ++ byteStr w ∧
      w - 127 ≤ 1 ∧ 127 - w ≤ 1 :=
  c4_achromatic_roundtrip '7' 'F' '7' 'f' '7' 'F' 127 (by decide) (by decide)
    (by decide)

/-! Branch-evaluation lemmas for `hue2rgb`, JavaScript's `%`, and the
chroma/offset identities connecting the two HSL-to-hex formulations. -/

theorem h2r_q {p q t : ℚ} (h1 : 1/6 ≤ t) (h2 : t < 1/2) :
    Generator.hue2rgb p q t = q := by
  simp only [Generator.hue2rgb]
  rw [if_neg (show ¬ t < 0 by linarith), if_neg (show ¬ t > 1 by linarith),
    if_neg (show ¬ t < 1/6 by linarith), if_pos h2]

theorem h2r_p {p q t : ℚ} (h1 : 2/3 ≤ t) (h2 : t ≤ 1) :
    Generator.hue2rgb p q t = p := by
  simp only [Generator.hue2rgb]
  rw [if_neg (show ¬ t < 0 by linarith), if_neg (show ¬ t > 1 by linarith),
    if_neg (show ¬ t < 1/6 by linarith), if_neg (show ¬ t < 1/2 by linarith),
    if_neg (show ¬ t < 2/3 by linarith)]

theorem h2r_rising {p q t : ℚ} (h1 : 0 ≤ t) (h2 : t < 1/6) :
    Generator.hue2rgb p q t = p + (q - p) * 6 * t := by
  simp only [Generator.hue2rgb]
  rw [if_neg (show ¬ t < 0 by linarith), if_neg (show ¬ t > 1 by linarith),
    if_pos h2]

theorem h2r_falling {p q t : ℚ} (h1 : 1/2 ≤ t) (h2 : t < 2/3) :
    Generator.hue2rgb p q t = p + (q - p) * (2/3 - t) * 6 := by
  simp only [Generator.hue2rgb]
  rw [if_neg (show ¬ t < 0 by linarith), if_neg (show ¬ t > 1 by linarith),
    if_neg (show ¬ t < 1/6 by linarith), if_neg (show ¬ t < 1/2 by linarith),
    if_pos h2]

theorem h2r_wrapneg_p {p q t : ℚ} (h1 : -(1/3 : ℚ) ≤ t) (h2 : t < 0) :
    Generator.hue2rgb p q t = p := by
  simp only [Generator.hue2rgb]
  rw [if_pos h2, if_neg (show ¬ t + 1 > 1 by linarith),
    if_neg (show ¬ t + 1 < 1/6 by linarith), if_neg (show ¬ t + 1 < 1/2 by linarith),
    if_neg (show ¬ t + 1 < 2/3 by linarith)]

theorem h2r_wrappos_rising {p q t : ℚ} (h1 : 1 < t) (h2 : t < 7/6) :
    Generator.hue2rgb p q t = p + (q - p) * 6 * (t - 1) := by
  simp only [Generator.hue2rgb]
  rw [if_neg (show ¬ t < 0 by linarith), if_pos (show t > 1 from h1),
    if_pos (show t - 1 < 1/6 by linarith)]

theorem h2r_wrappos_q {p q t : ℚ} (h1 : 7/6 ≤ t) (h2 : t < 3/2) :
    Generator.hue2rgb p q t = q := by
  simp only [Generator.hue2rgb]
  rw [if_neg (show ¬ t < 0 by linarith), if_pos (show t > 1 by linarith),
    if_neg (show ¬ t - 1 < 1/6 by linarith), if_pos (show t - 1 < 1/2 by linarith)]

theorem jsFmod_sector0 {h : ℚ} (h0 : 0 ≤ h) (h1 : h < 120) :
    ColorUtils.jsFmod (h / 60) 2 = h / 60 := by
  unfold ColorUtils.jsFmod ColorUtils.qTrunc
  rw [if_pos (show (0 : ℚ) ≤ h / 60 / 2 by positivity)]
  have hfl : ⌊h / 60 / 2⌋ = 0 := by
    rw [Int.floor_eq_zero_iff]
    constructor <;> [positivity; skip]
    show h / 60 / 2 < 1
    linarith
  rw [hfl]
  push_cast
  ring

theorem jsFmod_sector1 {h : ℚ} (h0 : 120 ≤ h) (h1 : h < 240) :
    ColorUtils.jsFmod (h / 60) 2 = h / 60 - 2 := by
  unfold ColorUtils.jsFmod ColorUtils.qTrunc
  rw [if_pos (show (0 : ℚ) ≤ h / 60 / 2 by positivity)]
  have hfl : ⌊h / 60 / 2⌋ = 1 := by
    rw [Int.floor_eq_iff]
    constructor <;> push_cast <;> linarith
  rw [hfl]
  push_cast
  ring

theorem jsFmod_sector2 {h : ℚ} (h0 : 240 ≤ h) (h1 : h < 360) :
    ColorUtils.jsFmod (h / 60) 2 = h / 60 - 4 := by
  unfold ColorUtils.jsFmod ColorUtils.qTrunc
  rw [if_pos (show (0 : ℚ) ≤ h / 60 / 2 by positivity)]
  have hfl : ⌊h / 60 / 2⌋ = 2 := by
    rw [Int.floor_eq_iff]
    constructor <;> push_cast <;> linarith
  rw [hfl]
  push_cast
  ring

theorem chroma_eq (s l : ℚ) :
    (1 - |2 * (l / 100) - 1|) * (s / 100) =
      (if l / 100 < 1/2 then l / 100 * (1 + s / 100)
        else l / 100 + s / 100 - l / 100 * (s / 100)) -
      (2 * (l / 100) -
        (if l / 100 < 1/2 then l / 100 * (1 + s / 100)
          else l / 100 + s / 100 - l / 100 * (s / 100))) := by
  by_cases hl2 : l / 100 < 1/2
  · rw [if_pos hl2, abs_of_nonpos (by linarith)]
    ring
  · rw [if_neg hl2, abs_of_nonneg (by linarith)]
    ring

theorem hash3_congr {a1 a2 a3 b1 b2 b3 : ℚ} (e1 : a1 = b1) (e2 : a2 = b2)
    (e3 : a3 = b3) :
    "#" ++ byteStr (jsRound (a1 * 255)) ++ byteStr (jsRound (a2 * 255)) ++
      byteStr (jsRound (a3 * 255)) =
    "#" ++ byteStr (jsRound (b1 * 255)) ++ byteStr (jsRound (b2 * 255)) ++
      byteStr (jsRound (b3 * 255)) := by
  rw [e1, e2, e3]

theorem hslToHex_chroma_agree (h s l : ℚ) (hh0 : 0 ≤ h) (hh1 : h < 360)
    (hs0 : 0 ≤ s) (hs1 : s ≤ 100) (hl0 : 0 ≤ l) (hl1 : l ≤ 100) :
    Generator.hslToHex h s l = ColorUtils.hslToHex h s l := by
  simp only [Generator.hslToHex, ColorUtils.hslToHex, ColorUtils.rgbToHex,
    Generator.toHex]
  by_cases hsz : s / 100 = 0
  · rw [if_pos hsz]
    rcases div_eq_zero_iff.mp hsz with hs' | hs'
    · subst hs'
      by_cases hA : h < 60
      · rw [if_pos (show (0:ℚ) ≤ h ∧ h < 60 from ⟨hh0, hA⟩)]
        dsimp only
        exact hash3_congr (by ring) (by ring) (by ring)
      · by_cases hB : h < 120
        · rw [if_neg (show ¬((0:ℚ) ≤ h ∧ h < 60) from fun hc => hA hc.2),
            if_pos (show (60:ℚ) ≤ h ∧ h < 120 from ⟨by linarith, hB⟩)]
          dsimp only
          exact hash3_congr (by ring) (by ring) (by ring)
        · by_cases hC : h < 180
          · rw [if_neg (show ¬((0:ℚ) ≤ h ∧ h < 60) from fun hc => hA hc.2),
              if_neg (show ¬((60:ℚ) ≤ h ∧ h < 120) from fun hc => hB hc.2),
              if_pos (show (120:ℚ) ≤ h ∧ h < 180 from ⟨by linarith, hC⟩)]
            dsimp only
            exact hash3_congr (by ring) (by ring) (by ring)
          · by_cases hD : h < 240
            · rw [if_neg (show ¬((0:ℚ) ≤ h ∧ h < 60) from fun hc => hA hc.2),
                if_neg (show ¬((60:ℚ) ≤ h ∧ h < 120) from fun hc => hB hc.2),
                if_neg (show ¬((120:ℚ) ≤ h ∧ h < 180) from fun hc => hC hc.2),
                if_pos (show (180:ℚ) ≤ h ∧ h < 240 from ⟨by linarith, hD⟩)]
              dsimp only
              exact hash3_congr (by ring) (by ring) (by ring)
            · by_cases hE : h < 300
              · rw [if_neg (show ¬((0:ℚ) ≤ h ∧ h < 60) from fun hc => hA hc.2),
                  if_neg (show ¬((60:ℚ) ≤ h ∧ h < 120) from fun hc => hB hc.2),
                  if_neg (show ¬((120:ℚ) ≤ h ∧ h < 180) from fun hc => hC hc.2),
                  if_neg (show ¬((180:ℚ) ≤ h ∧ h < 240) from fun hc => hD hc.2),
                  if_pos (show (240:ℚ) ≤ h ∧ h < 300 from ⟨by linarith, hE⟩)]
                dsimp only
                exact hash3_congr (by ring) (by ring) (by ring)
              · rw [if_neg (show ¬((0:ℚ) ≤ h ∧ h < 60) from fun hc => hA hc.2),
                  if_neg (show ¬((60:ℚ) ≤ h ∧ h < 120) from fun hc => hB hc.2),
                  if_neg (show ¬((120:ℚ) ≤ h ∧ h < 180) from fun hc => hC hc.2),
                  if_neg (show ¬((180:ℚ) ≤ h ∧ h < 240) from fun hc => hD hc.2),
                  if_neg (show ¬((240:ℚ) ≤ h ∧ h < 300) from fun hc => hE hc.2),
                  if_pos (show (300:ℚ) ≤ h ∧ h < 360 from ⟨by linarith, hh1⟩)]
                dsimp only
                exact hash3_congr (by ring) (by ring) (by ring)
    · exfalso
      norm_num at hs'
  · rw [if_neg hsz]
    rw [chroma_eq s l]
    by_cases hA : h < 60
    · rw [if_pos (show (0:ℚ) ≤ h ∧ h < 60 from ⟨hh0, hA⟩)]
      dsimp only
      rw [jsFmod_sector0 hh0 (by linarith), abs_of_nonpos (by linarith)]
      refine hash3_congr ?_ ?_ ?_
      · rw [h2r_q (show (1:ℚ)/6 ≤ h / 360 + 1/3 by linarith)
          (show h / 360 + 1/3 < 1/2 by linarith)]
        ring
      · rw [h2r_rising (show (0:ℚ) ≤ h / 360 by linarith)
          (show h / 360 < 1/6 by linarith)]
        ring
      · rw [h2r_wrapneg_p (show -(1/3 : ℚ) ≤ h / 360 - 1/3 by linarith)
          (show h / 360 - 1/3 < 0 by linarith)]
        ring
    · by_cases hB : h < 120
      · rw [if_neg (show ¬((0:ℚ) ≤ h ∧ h < 60) from fun hc => hA hc.2),
          if_pos (show (60:ℚ) ≤ h ∧ h < 120 from ⟨by linarith, hB⟩)]
        dsimp only
        rw [jsFmod_sector0 hh0 (by linarith), abs_of_nonneg (by linarith)]
        refine hash3_congr ?_ ?_ ?_
        · rw [h2r_falling (show (1:ℚ)/2 ≤ h / 360 + 1/3 by linarith)
            (show h / 360 + 1/3 < 2/3 by linarith)]
          ring
        · rw [h2r_q (show (1:ℚ)/6 ≤ h / 360 by linarith)
            (show h / 360 < 1/2 by linarith)]
          ring
        · rw [h2r_wrapneg_p (show -(1/3 : ℚ) ≤ h / 360 - 1/3 by linarith)
            (show h / 360 - 1/3 < 0 by linarith)]
          ring
      · by_cases hC : h < 180
        · rw [if_neg (show ¬((0:ℚ) ≤ h ∧ h < 60) from fun hc => hA hc.2),
            if_neg (show ¬((60:ℚ) ≤ h ∧ h < 120) from fun hc => hB hc.2),
            if_pos (show (120:ℚ) ≤ h ∧ h < 180 from ⟨by linarith, hC⟩)]
          dsimp only
          rw [jsFmod_sector1 (by linarith) (by linarith), abs_of_nonpos (by linarith)]
          refine hash3_congr ?_ ?_ ?_
          · rw [h2r_p (show (2:ℚ)/3 ≤ h / 360 + 1/3 by linarith)
              (show h / 360 + 1/3 ≤ 1 by linarith)]
            ring
          · rw [h2r_q (show (1:ℚ)/6 ≤ h / 360 by linarith)
              (show h / 360 < 1/2 by linarith)]
            ring
          · rw [h2r_rising (show (0:ℚ) ≤ h / 360 - 1/3 by linarith)
              (show h / 360 - 1/3 < 1/6 by linarith)]
            ring
        · by_cases hD : h < 240
          · rw [if_neg (show ¬((0:ℚ) ≤ h ∧ h < 60) from fun hc => hA hc.2),
              if_neg (show ¬((60:ℚ) ≤ h ∧ h < 120) from fun hc => hB hc.2),
              if_neg (show ¬((120:ℚ) ≤ h ∧ h < 180) from fun hc => hC hc.2),
              if_pos (show (180:ℚ) ≤ h ∧ h < 240 from ⟨by linarith, hD⟩)]
            dsimp only
            rw [jsFmod_sector1 (by linarith) (by linarith),
              abs_of_nonneg (by linarith)]
            refine hash3_congr ?_ ?_ ?_
            · rw [h2r_p (show (2:ℚ)/3 ≤ h / 360 + 1/3 by linarith)
                (show h / 360 + 1/3 ≤ 1 by linarith)]
              ring
            · rw [h2r_falling (show (1:ℚ)/2 ≤ h / 360 by linarith)
                (show h / 360 < 2/3 by linarith)]
              ring
            · rw [h2r_q (show (1:ℚ)/6 ≤ h / 360 - 1/3 by linarith)
                (show h / 360 - 1/3 < 1/2 by linarith)]
              ring
          · by_cases hE : h < 300
            · rw [if_neg (show ¬((0:ℚ) ≤ h ∧ h < 60) from fun hc => hA hc.2),
                if_neg (show ¬((60:ℚ) ≤ h ∧ h < 120) from fun hc => hB hc.2),
                if_neg (show ¬((120:ℚ) ≤ h ∧ h < 180) from fun hc => hC hc.2),
                if_neg (show ¬((180:ℚ) ≤ h ∧ h < 240) from fun hc => hD hc.2),
                if_pos (show (240:ℚ) ≤ h ∧ h < 300 from ⟨by linarith, hE⟩)]
              dsimp only
              rw [jsFmod_sector2 (by linarith) (by linarith),
                abs_of_nonpos (by linarith)]
              refine hash3_congr ?_ ?_ ?_
              · by_cases hgt : (1 : ℚ) < h / 360 + 1/3
                · rw [h2r_wrappos_rising hgt (show h / 360 + 1/3 < 7/6 by linarith)]
                  ring
                · have h240 : h = 240 := le_antisymm (by linarith) (by linarith)
                  subst h240
                  rw [h2r_p (by norm_num) (by norm_num)]
                  ring
              · rw [h2r_p (show (2:ℚ)/3 ≤ h / 360 by linarith)
                  (show h / 360 ≤ 1 by linarith)]
                ring
              · rw [h2r_q (show (1:ℚ)/6 ≤ h / 360 - 1/3 by linarith)
                  (show h / 360 - 1/3 < 1/2 by linarith)]
                ring
            · rw [if_neg (show ¬((0:ℚ) ≤ h ∧ h < 60) from fun hc => hA hc.2),
                if_neg (show ¬((60:ℚ) ≤ h ∧ h < 120) from fun hc => hB hc.2),
                if_neg (show ¬((120:ℚ) ≤ h ∧ h < 180) from fun hc => hC hc.2),
                if_neg (show ¬((180:ℚ) ≤ h ∧ h < 240) from fun hc => hD hc.2),
                if_neg (show ¬((240:ℚ) ≤ h ∧ h < 300) from fun hc => hE hc.2),
                if_pos (show (300:ℚ) ≤ h ∧ h < 360 from ⟨by linarith, hh1⟩)]
              dsimp only
              rw [jsFmod_sector2 (by linarith) (by linarith),
                abs_of_nonneg (by linarith)]
              refine hash3_congr ?_ ?_ ?_
              · rw [h2r_wrappos_q (show (7:ℚ)/6 ≤ h / 360 + 1/3 by linarith)
                  (show h / 360 + 1/3 < 3/2 by linarith)]
                ring
              · rw [h2r_p (show (2:ℚ)/3 ≤ h / 360 by linarith)
                  (show h / 360 ≤ 1 by linarith)]
                ring
              · rw [h2r_falling (show (1:ℚ)/2 ≤ h / 360 - 1/3 by linarith)
                  (show h / 360 - 1/3 < 2/3 by linarith)]
                ring

/-- C9: for every integer hue in [0, 360) and integer saturation/lightness
percentages in [0, 100], the generator's hue2rgb-based `hslToHex` and
colorUtils' chroma/sector-based `hslToHex` produce the same hex string. -/
theorem c9_hslToHex_implementations_agree (h s l : ℤ) (hh0 : 0 ≤ h)
    (hh1 : h < 360) (hs0 : 0 ≤ s) (hs1 : s ≤ 100) (hl0 : 0 ≤ l) (hl1 : l ≤ 100) :
    Generator.hslToHex (h : ℚ) (s : ℚ) (l : ℚ) =
      ColorUtils.hslToHex (h : ℚ) (s : ℚ) (l : ℚ) :=
  hslToHex_chroma_agree (h : ℚ) (s : ℚ) (l : ℚ) (by exact_mod_cast hh0)
    (by exact_mod_cast hh1) (by exact_mod_cast hs0) (by exact_mod_cast hs1)
    (by exact_mod_cast hl0) (by exact_mod_cast hl1)

/-- C9 witness: the two implementations agree at the concrete HSL input
(210, 40, 60). -/
theorem c9_hslToHex_implementations_agree_witness :
    Generator.hslToHex (((210 : ℤ)) : ℚ) (((40 : ℤ)) : ℚ) (((60 : ℤ)) : ℚ) =
      ColorUtils.hslToHex (((210 : ℤ)) : ℚ) (((40 : ℤ)) : ℚ) (((60 : ℤ)) : ℚ) :=
  c9_hslToHex_implementations_agree 210 40 60 (by decide) (by decide) (by decide)
    (by decide) (by decide) (by decide)

theorem jsRound_range {x : ℚ} {n : ℤ} (h0 : 0 ≤ x) (h1 : x ≤ (n : ℚ)) :
    0 ≤ jsRound x ∧ jsRound x ≤ n := by
  unfold jsRound
  constructor
  · exact Int.le_floor.mpr (by push_cast; linarith)
  · have hlt : ⌊x + 1/2⌋ < n + 1 := Int.floor_lt.mpr (by push_cast; linarith)
    omega

theorem jsRound_close {x y : ℚ} (h : jsRound x = jsRound y) : |x - y| < 1 := by
  unfold jsRound at h
  have hx1 : ((⌊x + 1/2⌋ : ℤ) : ℚ) ≤ x + 1/2 := Int.floor_le _
  have hx2 : x + 1/2 < ⌊x + 1/2⌋ + 1 := Int.lt_floor_add_one _
  have hy1 : ((⌊y + 1/2⌋ : ℤ) : ℚ) ≤ y + 1/2 := Int.floor_le _
  have hy2 : y + 1/2 < ⌊y + 1/2⌋ + 1 := Int.lt_floor_add_one _
  rw [h] at hx1 hx2
  rw [abs_lt]
  constructor <;> linarith

set_option maxHeartbeats 1600000 in
theorem hslFromRgb_range (r g b : ℤ) (hr0 : 0 ≤ r) (hr1 : r ≤ 255)
    (hg0 : 0 ≤ g) (hg1 : g ≤ 255) (hb0 : 0 ≤ b) (hb1 : b ≤ 255) :
    0 ≤ (Generator.hslFromRgb r g b).h ∧ (Generator.hslFromRgb r g b).h ≤ 360 ∧
    0 ≤ (Generator.hslFromRgb r g b).s ∧ (Generator.hslFromRgb r g b).s ≤ 100 ∧
    0 ≤ (Generator.hslFromRgb r g b).l ∧ (Generator.hslFromRgb r g b).l ≤ 100 := by
  have hx0 : (0:ℚ) ≤ (r : ℚ) / 255 := by positivity
  have hx1 : (r : ℚ) / 255 ≤ 1 := by
    rw [div_le_one (by norm_num)]
    exact_mod_cast hr1
  have hy0 : (0:ℚ) ≤ (g : ℚ) / 255 := by positivity
  have hy1 : (g : ℚ) / 255 ≤ 1 := by
    rw [div_le_one (by norm_num)]
    exact_mod_cast hg1
  have hz0 : (0:ℚ) ≤ (b : ℚ) / 255 := by positivity
  have hz1 : (b : ℚ) / 255 ≤ 1 := by
    rw [div_le_one (by norm_num)]
    exact_mod_cast hb1
  simp only [Generator.hslFromRgb]
  set x := (r : ℚ) / 255 with hxd
  set y := (g : ℚ) / 255 with hyd
  set z := (b : ℚ) / 255 with hzd
  set mx := max x (max y z) with hmxd
  set mn := min x (min y z) with hmnd
  have hmx1 : mx ≤ 1 := max_le hx1 (max_le hy1 hz1)
  have hmn0 : 0 ≤ mn := le_min hx0 (le_min hy0 hz0)
  have hxmx : x ≤ mx := le_max_left _ _
  have hymx : y ≤ mx := le_trans (le_max_left _ _) (le_max_right _ _)
  have hzmx : z ≤ mx := le_trans (le_max_right _ _) (le_max_right _ _)
  have hmnx : mn ≤ x := min_le_left _ _
  have hmny : mn ≤ y := le_trans (min_le_right _ _) (min_le_left _ _)
  have hmnz : mn ≤ z := le_trans (min_le_right _ _) (min_le_right _ _)
  have hL0 : (0:ℚ) ≤ (mx + mn) / 2 * 100 := by linarith
  have hL1 : (mx + mn) / 2 * 100 ≤ ((100 : ℤ) : ℚ) := by push_cast; linarith
  by_cases hmm : mx = mn
  · rw [if_pos hmm]
    exact ⟨le_refl 0, show (0:ℤ) ≤ 360 by decide, le_refl 0,
      show (0:ℤ) ≤ 100 by decide,
      (jsRound_range hL0 hL1).1, (jsRound_range hL0 hL1).2⟩
  · rw [if_neg hmm]
    have hlt : mn < mx := lt_of_le_of_ne (le_trans hmnx hxmx) fun e => hmm e.symm
    have hd : (0:ℚ) < mx - mn := sub_pos.mpr hlt
    set A := (if mx = x then (y - z) / (mx - mn) + (if y < z then 6 else 0)
      else if mx = y then (z - x) / (mx - mn) + 2
      else (x - y) / (mx - mn) + 4) with hA
    set SV := (if (mx + mn) / 2 > 1/2 then (mx - mn) / (2 - mx - mn)
      else (mx - mn) / (mx + mn)) with hSV
    have key1 : ∀ a c : ℚ, mn ≤ a → c ≤ mx → -1 ≤ (a - c) / (mx - mn) := by
      intro a c h1 h2
      rw [le_div_iff hd]
      linarith
    have key2 : ∀ a c : ℚ, mn ≤ c → a ≤ mx → (a - c) / (mx - mn) ≤ 1 := by
      intro a c h1 h2
      rw [div_le_one hd]
      linarith
    have hA06 : 0 ≤ A ∧ A ≤ 6 := by
      rw [hA]
      by_cases h1 : mx = x
      · rw [if_pos h1]
        by_cases h2 : y < z
        · rw [if_pos h2]
          have k1 := key1 y z hmny hzmx
          have k2 : (y - z) / (mx - mn) ≤ 0 := by
            rw [div_le_iff hd]
            linarith
          constructor <;> linarith
        · rw [if_neg h2]
          have k2 := key2 y z hmnz hymx
          have k0 : 0 ≤ (y - z) / (mx - mn) :=
            div_nonneg (by linarith [not_lt.mp h2]) hd.le
          constructor <;> linarith
      · rw [if_neg h1]
        by_cases h2 : mx = y
        · rw [if_pos h2]
          have k1 := key1 z x hmnz hxmx
          have k2 := key2 z x hmnx hzmx
          constructor <;> linarith
        · rw [if_neg h2]
          have k1 := key1 x y hmnx hymx
          have k2 := key2 x y hmny hxmx
          constructor <;> linarith
    have hSV01 : 0 ≤ SV ∧ SV ≤ 1 := by
      rw [hSV]
      by_cases hc : (mx + mn) / 2 > 1/2
      · rw [if_pos hc]
        have hden : (0:ℚ) < 2 - mx - mn := by linarith
        exact ⟨div_nonneg (by linarith) hden.le, by rw [div_le_one hden]; linarith⟩
      · rw [if_neg hc]
        have hmxpos : (0:ℚ) < mx := lt_of_le_of_lt hmn0 hlt
        have hden : (0:ℚ) < mx + mn := by linarith
        exact ⟨div_nonneg (by linarith) hden.le, by rw [div_le_one hden]; linarith⟩
    clear_value A SV
    have eA : A / 6 * 360 = A * 60 := by ring
    have hA0' : (0:ℚ) ≤ A / 6 * 360 := by rw [eA]; linarith [hA06.1]
    have hA1' : A / 6 * 360 ≤ ((360 : ℤ) : ℚ) := by rw [eA]; push_cast; linarith [hA06.2]
    have hS0' : (0:ℚ) ≤ SV * 100 := by linarith [hSV01.1]
    have hS1' : SV * 100 ≤ ((100 : ℤ) : ℚ) := by push_cast; linarith [hSV01.2]
    exact ⟨(jsRound_range hA0' hA1').1, (jsRound_range hA0' hA1').2,
      (jsRound_range hS0' hS1').1, (jsRound_range hS0' hS1').2,
      (jsRound_range hL0 hL1).1, (jsRound_range hL0 hL1).2⟩

theorem hexToHsl_range {str : String} (hv : Generator.isValidHex str = true) :
    0 ≤ (Generator.hexToHsl str).h ∧ (Generator.hexToHsl str).h ≤ 360 ∧
    0 ≤ (Generator.hexToHsl str).s ∧ (Generator.hexToHsl str).s ≤ 100 ∧
    0 ≤ (Generator.hexToHsl str).l ∧ (Generator.hexToHsl str).l ≤ 100 := by
  obtain ⟨data⟩ := str
  cases data with
  | nil => simp [Generator.isValidHex] at hv
  | cons c rest =>
    simp only [Generator.isValidHex, Bool.and_eq_true, Bool.or_eq_true, beq_iff_eq,
      List.all_eq_true] at hv
    obtain ⟨⟨hc, hlen⟩, hall⟩ := hv
    subst hc
    rcases hlen with h3 | h6
    · rcases rest with _ | ⟨a, _ | ⟨b2, _ | ⟨c3, _ | ⟨d, t⟩⟩⟩⟩ <;>
        simp only [List.length_cons, List.length_nil] at h3 <;> try omega
      simp only [List.mem_cons, List.not_mem_nil, forall_eq_or_imp, forall_eq,
        List.mem_singleton, or_false, false_implies, and_true] at hall
      obtain ⟨ha, hb2, hc3⟩ := hall
      obtain ⟨rv, hrv, hrv0, hrv1⟩ := channel?_of_digits ha ha
      obtain ⟨gv, hgv, hgv0, hgv1⟩ := channel?_of_digits hb2 hb2
      obtain ⟨bv, hbv, hbv0, hbv1⟩ := channel?_of_digits hc3 hc3
      simp only [Generator.hexToHsl]
      rw [hrv, hgv, hbv]
      exact hslFromRgb_range rv gv bv hrv0 hrv1 hgv0 hgv1 hbv0 hbv1
    · rcases rest with _ | ⟨a, _ | ⟨b2, _ | ⟨c3, _ | ⟨d, _ | ⟨e, _ | ⟨f, _ | ⟨g2, t⟩⟩⟩⟩⟩⟩⟩ <;>
        simp only [List.length_cons, List.length_nil] at h6 <;> try omega
      simp only [List.mem_cons, List.not_mem_nil, forall_eq_or_imp, forall_eq,
        List.mem_singleton, or_false, false_implies, and_true] at hall
      obtain ⟨ha, hb2, hc3, hd, he, hf⟩ := hall
      obtain ⟨rv, hrv, hrv0, hrv1⟩ := channel?_of_digits ha hb2
      obtain ⟨gv, hgv, hgv0, hgv1⟩ := channel?_of_digits hc3 hd
      obtain ⟨bv, hbv, hbv0, hbv1⟩ := channel?_of_digits he hf
      simp only [Generator.hexToHsl]
      rw [hrv, hgv, hbv]
      exact hslFromRgb_range rv gv bv hrv0 hrv1 hgv0 hgv1 hbv0 hbv1

theorem byteStr_len {n : ℤ} (h0 : 0 ≤ n) (h1 : n ≤ 255) :
    (byteStr n).data.length = 2 := by
  rw [byteStr_data h0 h1]
  rfl

theorem string_data_inj {a b : String} (h : a.data = b.data) : a = b := by
  cases a
  cases b
  exact congrArg String.mk h

theorem append3_inj {x1 y1 z1 x2 y2 z2 : String}
    (hx1 : x1.data.length = 2) (hy1 : y1.data.length = 2)
    (hx2 : x2.data.length = 2) (hy2 : y2.data.length = 2)
    (h : "#" ++ x1 ++ y1 ++ z1 = "#" ++ x2 ++ y2 ++ z2) :
    x1 = x2 ∧ y1 = y2 ∧ z1 = z2 := by
  have hhash : ("#" : String).data = ['#'] := rfl
  have hd : ("#" ++ x1 ++ y1 ++ z1).data = ("#" ++ x2 ++ y2 ++ z2).data := by rw [h]
  simp only [String.data_append] at hd
  obtain ⟨h5, hz⟩ := List.append_inj hd
    (by simp [List.length_append, hhash, hx1, hy1, hx2, hy2])
  obtain ⟨h3, hy⟩ := List.append_inj h5
    (by simp [List.length_append, hhash, hx1, hx2])
  have hx := List.append_cancel_left h3
  exact ⟨string_data_inj hx, string_data_inj hy, string_data_inj hz⟩

set_option maxHeartbeats 1600000 in
theorem hslToHex_lightness15_ne {h s1 s2 l2 : ℚ} (hh0 : 0 ≤ h) (hh1 : h ≤ 360)
    (hs10 : 0 < s1) (hs11 : s1 ≤ 100) (hs20 : 0 < s2) (hs21 : s2 ≤ 100)
    (hl20 : 0 ≤ l2) (hl21 : l2 ≤ 85) :
    Generator.hslToHex h s1 (l2 + 15) ≠ Generator.hslToHex h s2 l2 := by
  intro heq
  simp only [Generator.hslToHex, Generator.toHex] at heq
  rw [if_neg (show ¬(s1 / 100 = 0) from ne_of_gt (div_pos hs10 (by norm_num))),
    if_neg (show ¬(s2 / 100 = 0) from ne_of_gt (div_pos hs20 (by norm_num)))] at heq
  obtain ⟨hpq1, hp10, hq11⟩ := hsl_q_bounds
    (show (0:ℚ) ≤ s1 / 100 from div_nonneg hs10.le (by norm_num))
    (show s1 / 100 ≤ 1 from (div_le_one (by norm_num)).mpr hs11)
    (show (0:ℚ) ≤ (l2 + 15) / 100 from div_nonneg (by linarith) (by norm_num))
    (show (l2 + 15) / 100 ≤ 1 from (div_le_one (by norm_num)).mpr (by linarith))
  obtain ⟨hpq2, hp20, hq21⟩ := hsl_q_bounds
    (show (0:ℚ) ≤ s2 / 100 from div_nonneg hs20.le (by norm_num))
    (show s2 / 100 ≤ 1 from (div_le_one (by norm_num)).mpr hs21)
    (show (0:ℚ) ≤ l2 / 100 from div_nonneg hl20 (by norm_num))
    (show l2 / 100 ≤ 1 from (div_le_one (by norm_num)).mpr (by linarith))
  have hu0 : (0:ℚ) ≤ h / 360 := div_nonneg hh0 (by norm_num)
  have hu1 : h / 360 ≤ 1 := (div_le_one (by norm_num)).mpr hh1
  have cr1 := hue2rgb_mem hpq1 (show -(1/3:ℚ) ≤ h / 360 + 1/3 by linarith)
    (show h / 360 + 1/3 ≤ 4/3 by linarith)
  have cg1 := hue2rgb_mem hpq1 (show -(1/3:ℚ) ≤ h / 360 by linarith)
    (show h / 360 ≤ 4/3 by linarith)
  have cb1 := hue2rgb_mem hpq1 (show -(1/3:ℚ) ≤ h / 360 - 1/3 by linarith)
    (show h / 360 - 1/3 ≤ 4/3 by linarith)
  have cr2 := hue2rgb_mem hpq2 (show -(1/3:ℚ) ≤ h / 360 + 1/3 by linarith)
    (show h / 360 + 1/3 ≤ 4/3 by linarith)
  have cg2 := hue2rgb_mem hpq2 (show -(1/3:ℚ) ≤ h / 360 by linarith)
    (show h / 360 ≤ 4/3 by linarith)
  have cb2 := hue2rgb_mem hpq2 (show -(1/3:ℚ) ≤ h / 360 - 1/3 by linarith)
    (show h / 360 - 1/3 ≤ 4/3 by linarith)
  have jr1 := jsRound_byte_range (le_trans hp10 cr1.1) (le_trans cr1.2 hq11)
  have jg1 := jsRound_byte_range (le_trans hp10 cg1.1) (le_trans cg1.2 hq11)
  have jb1 := jsRound_byte_range (le_trans hp10 cb1.1) (le_trans cb1.2 hq11)
  have jr2 := jsRound_byte_range (le_trans hp20 cr2.1) (le_trans cr2.2 hq21)
  have jg2 := jsRound_byte_range (le_trans hp20 cg2.1) (le_trans cg2.2 hq21)
  have jb2 := jsRound_byte_range (le_trans hp20 cb2.1) (le_trans cb2.2 hq21)
  obtain ⟨hAeq, hBeq, hCeq⟩ := append3_inj (byteStr_len jr1.1 jr1.2)
    (byteStr_len jg1.1 jg1.2) (byteStr_len jr2.1 jr2.2) (byteStr_len jg2.1 jg2.2) heq
  have er := byteStr_inj jr1.1 jr1.2 jr2.1 jr2.2 hAeq
  have eg := byteStr_inj jg1.1 jg1.2 jg2.1 jg2.2 hBeq
  have eb := byteStr_inj jb1.1 jb1.2 jb2.1 jb2.2 hCeq
  by_cases hA : h < 60
  · rw [h2r_q (show (1:ℚ)/6 ≤ h / 360 + 1/3 by linarith)
        (show h / 360 + 1/3 < 1/2 by linarith),
      h2r_q (show (1:ℚ)/6 ≤ h / 360 + 1/3 by linarith)
        (show h / 360 + 1/3 < 1/2 by linarith)] at er
    rw [h2r_wrapneg_p (show -(1/3:ℚ) ≤ h / 360 - 1/3 by linarith)
        (show h / 360 - 1/3 < 0 by linarith),
      h2r_wrapneg_p (show -(1/3:ℚ) ≤ h / 360 - 1/3 by linarith)
        (show h / 360 - 1/3 < 0 by linarith)] at eb
    have dq := jsRound_close er
    have dp := jsRound_close eb
    rw [abs_lt] at dq dp
    linarith [dq.1, dq.2, dp.1, dp.2]
  · by_cases hB : h < 120
    · rw [h2r_q (show (1:ℚ)/6 ≤ h / 360 by linarith) (show h / 360 < 1/2 by linarith),
        h2r_q (show (1:ℚ)/6 ≤ h / 360 by linarith)
          (show h / 360 < 1/2 by linarith)] at eg
      rw [h2r_wrapneg_p (show -(1/3:ℚ) ≤ h / 360 - 1/3 by linarith)
          (show h / 360 - 1/3 < 0 by linarith),
        h2r_wrapneg_p (show -(1/3:ℚ) ≤ h / 360 - 1/3 by linarith)
          (show h / 360 - 1/3 < 0 by linarith)] at eb
      have dq := jsRound_close eg
      have dp := jsRound_close eb
      rw [abs_lt] at dq dp
      linarith [dq.1, dq.2, dp.1, dp.2]
    · by_cases hC : h < 180
      · rw [h2r_q (show (1:ℚ)/6 ≤ h / 360 by linarith) (show h / 360 < 1/2 by linarith),
          h2r_q (show (1:ℚ)/6 ≤ h / 360 by linarith)
            (show h / 360 < 1/2 by linarith)] at eg
        rw [h2r_p (show (2:ℚ)/3 ≤ h / 360 + 1/3 by linarith)
            (show h / 360 + 1/3 ≤ 1 by linarith),
          h2r_p (show (2:ℚ)/3 ≤ h / 360 + 1/3 by linarith)
            (show h / 360 + 1/3 ≤ 1 by linarith)] at er
        have dq := jsRound_close eg
        have dp := jsRound_close er
        rw [abs_lt] at dq dp
        linarith [dq.1, dq.2, dp.1, dp.2]
      · by_cases hD : h < 240
        · rw [h2r_q (show (1:ℚ)/6 ≤ h / 360 - 1/3 by linarith)
              (show h / 360 - 1/3 < 1/2 by linarith),
            h2r_q (show (1:ℚ)/6 ≤ h / 360 - 1/3 by linarith)
              (show h / 360 - 1/3 < 1/2 by linarith)] at eb
          rw [h2r_p (show (2:ℚ)/3 ≤ h / 360 + 1/3 by linarith)
              (show h / 360 + 1/3 ≤ 1 by linarith),
            h2r_p (show (2:ℚ)/3 ≤ h / 360 + 1/3 by linarith)
              (show h / 360 + 1/3 ≤ 1 by linarith)] at er
          have dq := jsRound_close eb
          have dp := jsRound_close er
          rw [abs_lt] at dq dp
          linarith [dq.1, dq.2, dp.1, dp.2]
        · by_cases hE : h < 300
          · rw [h2r_q (show (1:ℚ)/6 ≤ h / 360 - 1/3 by linarith)
                (show h / 360 - 1/3 < 1/2 by linarith),
              h2r_q (show (1:ℚ)/6 ≤ h / 360 - 1/3 by linarith)
                (show h / 360 - 1/3 < 1/2 by linarith)] at eb
            rw [h2r_p (show (2:ℚ)/3 ≤ h / 360 by linarith)
                (show h / 360 ≤ 1 by linarith),
              h2r_p (show (2:ℚ)/3 ≤ h / 360 by linarith)
                (show h / 360 ≤ 1 by linarith)] at eg
            have dq := jsRound_close eb
            have dp := jsRound_close eg
            rw [abs_lt] at dq dp
            linarith [dq.1, dq.2, dp.1, dp.2]
          · rw [h2r_wrappos_q (show (7:ℚ)/6 ≤ h / 360 + 1/3 by linarith)
                (show h / 360 + 1/3 < 3/2 by linarith),
              h2r_wrappos_q (show (7:ℚ)/6 ≤ h / 360 + 1/3 by linarith)
                (show h / 360 + 1/3 < 3/2 by linarith)] at er
            rw [h2r_p (show (2:ℚ)/3 ≤ h / 360 by linarith)
                (show h / 360 ≤ 1 by linarith),
              h2r_p (show (2:ℚ)/3 ≤ h / 360 by linarith)
                (show h / 360 ≤ 1 by linarith)] at eg
            have dq := jsRound_close er
            have dp := jsRound_close eg
            rw [abs_lt] at dq dp
            linarith [dq.1, dq.2, dp.1, dp.2]

theorem dedup_eq_nil {scheme : Generator.ColorSchemeType} {baseHex : String} :
    ∀ (cs : List Generator.Color) (seen : List String),
      Generator.dedupPalette scheme baseHex cs seen = [] →
      ∀ c ∈ cs, Generator.guardSkip scheme baseHex c ∨ c.hex ∈ seen := by
  intro cs
  induction cs with
  | nil =>
    intro seen hnil c hc
    simp at hc
  | cons d rest ih =>
    intro seen hnil c hc
    simp only [Generator.dedupPalette] at hnil
    by_cases hg : Generator.guardSkip scheme baseHex d
    · rw [if_pos hg] at hnil
      rcases List.mem_cons.mp hc with rfl | hm
      · exact Or.inl hg
      · exact ih seen hnil c hm
    · rw [if_neg hg] at hnil
      by_cases hs : d.hex ∈ seen
      · rw [if_pos hs] at hnil
        rcases List.mem_cons.mp hc with rfl | hm
        · exact Or.inr hs
        · exact ih seen hnil c hm
      · rw [if_neg hs] at hnil
        simp at hnil

theorem generatePalette_ne_nil (baseHex : String) (scheme : Generator.ColorSchemeType)
    (hv : Generator.isValidHex baseHex = true) :
    Generator.generatePalette baseHex scheme ≠ [] := by
  cases scheme with
  | Analogous =>
    intro hnil
    rw [generatePalette_base_head baseHex Generator.ColorSchemeType.Analogous _ rfl] at hnil
    exact List.cons_ne_nil _ _ hnil
  | Complementary =>
    intro hnil
    rw [generatePalette_base_head baseHex Generator.ColorSchemeType.Complementary _ rfl] at hnil
    exact List.cons_ne_nil _ _ hnil
  | Triadic =>
    intro hnil
    rw [generatePalette_base_head baseHex Generator.ColorSchemeType.Triadic _ rfl] at hnil
    exact List.cons_ne_nil _ _ hnil
  | SplitComplementary =>
    intro hnil
    rw [generatePalette_base_head baseHex Generator.ColorSchemeType.SplitComplementary _ rfl] at hnil
    exact List.cons_ne_nil _ _ hnil
  | Tetradic =>
    intro hnil
    rw [generatePalette_base_head baseHex Generator.ColorSchemeType.Tetradic _ rfl] at hnil
    exact List.cons_ne_nil _ _ hnil
  | LuminosityContrast =>
    intro hnil
    have hlen7 : (Generator.rawPalette baseHex
        Generator.ColorSchemeType.LuminosityContrast).length = 7 := rfl
    have hne : Generator.rawPalette baseHex
        Generator.ColorSchemeType.LuminosityContrast ≠ [] := by
      intro hE
      rw [hE] at hlen7
      simp at hlen7
    obtain ⟨cEl, hcEl⟩ := List.exists_mem_of_ne_nil _ hne
    rcases dedup_eq_nil _ [] hnil cEl hcEl with hg | hm
    · exact hg.1 rfl
    · simp at hm
  | MonochromaticAchromatic =>
    intro hnil
    have key := dedup_eq_nil (Generator.rawPalette baseHex
      Generator.ColorSchemeType.MonochromaticAchromatic) [] hnil
    have hraw : Generator.rawPalette baseHex
        Generator.ColorSchemeType.MonochromaticAchromatic =
        [⟨baseHex, "Base (Accento)"⟩, ⟨"#FFFFFF", "Neutro (Bianco)"⟩,
         ⟨"#E5E7EB", "Neutro (Grigio Chiaro)"⟩, ⟨"#4B5563", "Neutro (Grigio Scuro)"⟩,
         ⟨"#000000", "Neutro (Nero)"⟩] := rfl
    have memW : (⟨"#FFFFFF", "Neutro (Bianco)"⟩ : Generator.Color) ∈
        Generator.rawPalette baseHex Generator.ColorSchemeType.MonochromaticAchromatic := by
      rw [hraw]
      simp
    have memE : (⟨"#E5E7EB", "Neutro (Grigio Chiaro)"⟩ : Generator.Color) ∈
        Generator.rawPalette baseHex Generator.ColorSchemeType.MonochromaticAchromatic := by
      rw [hraw]
      simp
    rcases key _ memW with hgW | hmW
    · rcases key _ memE with hgE | hmE
      · have e1 : ("#FFFFFF" : String) = baseHex := hgW.2.1
        have e2 : ("#E5E7EB" : String) = baseHex := hgE.2.1
        have e3 : ("#FFFFFF" : String) = "#E5E7EB" := e1.trans e2.symm
        exact absurd e3 (by decide)
      · simp at hmE
    · simp at hmW
  | Monochromatic =>
    intro hnil
    obtain ⟨rh0, rh1, rs0, rs1, rl0, rl1⟩ := hexToHsl_range hv
    have key := dedup_eq_nil (Generator.rawPalette baseHex
      Generator.ColorSchemeType.Monochromatic) [] hnil
    have hraw : Generator.rawPalette baseHex Generator.ColorSchemeType.Monochromatic =
        [⟨baseHex, "Base (Originale)"⟩,
         ⟨Generator.hslToHex ((Generator.hexToHsl baseHex).h : ℚ)
            ((min ((Generator.hexToHsl baseHex).s + 15) 100 : ℤ) : ℚ)
            ((min ((Generator.hexToHsl baseHex).l + 30) 95 : ℤ) : ℚ),
          "Monocromatico (Chiaro 1)"⟩,
         ⟨Generator.hslToHex ((Generator.hexToHsl baseHex).h : ℚ)
            ((min ((Generator.hexToHsl baseHex).s + 5) 100 : ℤ) : ℚ)
            ((min ((Generator.hexToHsl baseHex).l + 15) 80 : ℤ) : ℚ),
          "Monocromatico (Chiaro 2)"⟩,
         ⟨Generator.hslToHex ((Generator.hexToHsl baseHex).h : ℚ)
            ((max ((Generator.hexToHsl baseHex).s - 15) 0 : ℤ) : ℚ)
            ((max ((Generator.hexToHsl baseHex).l - 30) 5 : ℤ) : ℚ),
          "Monocromatico (Scuro 1)"⟩,
         ⟨Generator.hslToHex ((Generator.hexToHsl baseHex).h : ℚ)
            ((max ((Generator.hexToHsl baseHex).s - 5) 0 : ℤ) : ℚ)
            ((max ((Generator.hexToHsl baseHex).l - 15) 20 : ℤ) : ℚ),
          "Monocromatico (Scuro 2)"⟩] := rfl
    have mem2 : (⟨Generator.hslToHex ((Generator.hexToHsl baseHex).h : ℚ)
        ((min ((Generator.hexToHsl baseHex).s + 15) 100 : ℤ) : ℚ)
        ((min ((Generator.hexToHsl baseHex).l + 30) 95 : ℤ) : ℚ),
        "Monocromatico (Chiaro 1)"⟩ : Generator.Color) ∈
        Generator.rawPalette baseHex Generator.ColorSchemeType.Monochromatic := by
      rw [hraw]
      simp
    have mem3 : (⟨Generator.hslToHex ((Generator.hexToHsl baseHex).h : ℚ)
        ((min ((Generator.hexToHsl baseHex).s + 5) 100 : ℤ) : ℚ)
        ((min ((Generator.hexToHsl baseHex).l + 15) 80 : ℤ) : ℚ),
        "Monocromatico (Chiaro 2)"⟩ : Generator.Color) ∈
        Generator.rawPalette baseHex Generator.ColorSchemeType.Monochromatic := by
      rw [hraw]
      simp
    rcases key _ mem2 with hg2 | hm2
    · rcases key _ mem3 with hg3 | hm3
      · have hx2 : Generator.hslToHex ((Generator.hexToHsl baseHex).h : ℚ)
            ((min ((Generator.hexToHsl baseHex).s + 15) 100 : ℤ) : ℚ)
            ((min ((Generator.hexToHsl baseHex).l + 30) 95 : ℤ) : ℚ) = baseHex := hg2.2.1
        have hx3 : Generator.hslToHex ((Generator.hexToHsl baseHex).h : ℚ)
            ((min ((Generator.hexToHsl baseHex).s + 5) 100 : ℤ) : ℚ)
            ((min ((Generator.hexToHsl baseHex).l + 15) 80 : ℤ) : ℚ) = baseHex := hg3.2.1
        have heq := hx2.trans hx3.symm
        have hzmin : (min ((Generator.hexToHsl baseHex).l + 30) 95 : ℤ) =
            min ((Generator.hexToHsl baseHex).l + 15) 80 + 15 := by omega
        have hcast : ((min ((Generator.hexToHsl baseHex).l + 30) 95 : ℤ) : ℚ) =
            ((min ((Generator.hexToHsl baseHex).l + 15) 80 : ℤ) : ℚ) + 15 := by
          rw [hzmin]
          push_cast
          ring
        rw [hcast] at heq
        refine hslToHex_lightness15_ne (by exact_mod_cast rh0) (by exact_mod_cast rh1)
          ?_ ?_ ?_ ?_ ?_ ?_ heq
        · exact_mod_cast (show (0:ℤ) < min ((Generator.hexToHsl baseHex).s + 15) 100 by omega)
        · exact_mod_cast (show (min ((Generator.hexToHsl baseHex).s + 15) 100 : ℤ) ≤ 100 by omega)
        · exact_mod_cast (show (0:ℤ) < min ((Generator.hexToHsl baseHex).s + 5) 100 by omega)
        · exact_mod_cast (show (min ((Generator.hexToHsl baseHex).s + 5) 100 : ℤ) ≤ 100 by omega)
        · exact_mod_cast (show (0:ℤ) ≤ min ((Generator.hexToHsl baseHex).l + 15) 80 by omega)
        · exact_mod_cast (show (min ((Generator.hexToHsl baseHex).l + 15) 80 : ℤ) ≤ 85 by omega)
      · simp at hm3
    · simp at hm2

/-- C3 amended: the empty-on-invalid contract belongs to the App component,
not to `generatePalette`.  The App's memoized pipeline returns the empty
palette exactly when the input fails the hex regex; when the input is valid,
the pipeline is `generatePalette`, and that is non-empty under every scheme.
(`generatePalette` itself performs no validation: see the separate
counterexample showing a non-empty palette for `"blue"`.) -/
theorem c3_app_validation (s : String) (scheme : Generator.ColorSchemeType) :
    (Generator.isValidHex s = false → Generator.appPalette s scheme = []) ∧
    (Generator.isValidHex s = true →
      Generator.appPalette s scheme = Generator.generatePalette s scheme ∧
      Generator.generatePalette s scheme ≠ []) := by
  constructor
  · intro hf
    simp [Generator.appPalette, hf]
  · intro ht
    exact ⟨by simp [Generator.appPalette, ht], generatePalette_ne_nil s scheme ht⟩

/-- C3 witness: the invalid input `"blue"` yields the empty App palette, and
the valid input `"#FF0000"` yields a non-empty Monochromatic palette. -/
theorem c3_app_validation_witness :
    Generator.appPalette "blue" Generator.ColorSchemeType.Monochromatic = [] ∧
    Generator.generatePalette "#FF0000" Generator.ColorSchemeType.Monochromatic ≠ [] :=
  ⟨(c3_app_validation "blue" Generator.ColorSchemeType.Monochromatic).1 (by decide),
   ((c3_app_validation "#FF0000" Generator.ColorSchemeType.Monochromatic).2 (by decide)).2⟩
